import Mathlib

/-!
Verification development for the visual data-mapping tool
(mapping-configuration compiler: canvas graph export/import, execution
export, AI suggestion adapter, versioning and activation store).

The TypeScript source is shallowly embedded: each definition below mirrors
one source function or data shape.  JavaScript truthiness on the `||`
operator is made explicit through the small `jsOr*` helpers (a string is
falsy exactly when it is empty; an absent value is falsy; arrays and
objects are always truthy).
-/

/-- JS `a || d` for an optional string `a`: an absent or empty string falls
through to the default. -/
def jsOr (a : Option String) (d : String) : String :=
  match a with
  | none => d
  | some s => if s = "" then d else s

/-- JS `s || d` for a string that is always present. -/
def jsOrP (s d : String) : String :=
  if s = "" then d else s

/-- JS `a || d` for an optional number: `0` is falsy. -/
def jsOrInt (a : Option Int) (d : Int) : Int :=
  match a with
  | none => d
  | some n => if n = 0 then d else n

/-- JS `a || b || d` for two optional strings with a final string default. -/
def jsOrChain2 (a b : Option String) (d : String) : String :=
  match a with
  | some s => if s = "" then jsOr b d else s
  | none => jsOr b d

/-- JS `a || undefined` for an optional string: an empty string becomes
absent. -/
def jsOrUndef (a : Option String) : Option String :=
  match a with
  | none => none
  | some s => if s = "" then none else some s

/-- JS `a || b` where both sides are optional strings and the result may be
absent (`description || existingMapping?.description`). -/
def jsOrOpt (a b : Option String) : Option String :=
  match a with
  | none => b
  | some s => if s = "" then b else some s

/-! ## Schema model (`SchemaField`, §3 of the spec)

`SchemaField` is the typed field tree shared by source and target nodes:
`id`, `name`, `type`, optional `children`, optional `groupBy`. -/

inductive SchemaField where
  | mk (id name type : String) (children : Option (List SchemaField))
      (groupBy : Option String)

def SchemaField.id : SchemaField → String
  | .mk i _ _ _ _ => i

def SchemaField.name : SchemaField → String
  | .mk _ n _ _ _ => n

def SchemaField.ftype : SchemaField → String
  | .mk _ _ t _ _ => t

def SchemaField.children : SchemaField → Option (List SchemaField)
  | .mk _ _ _ c _ => c

def SchemaField.groupBy : SchemaField → Option String
  | .mk _ _ _ _ g => g

/-- An entry of the external array-configuration list consumed by
`reconstructSchemaFields`; the code reads `config.target` and
`config.groupBy`. -/
structure ArrayConfig where
  target : String
  groupBy : Option String
deriving Repr, DecidableEq

mutual

/-- `reconstructSchemaFields` from
`src/services/TemplateMapper/TemplateMapperService.ts` (NodeImporter half):
maps over `fields`; for an `array`-typed field, when `arrayConfigs` is
present and contains an entry whose `target` equals the field's `name`, the
field's `groupBy` is overwritten with `arrayConfig.groupBy || undefined`;
children are recursed into whenever present. -/
def reconstructSchemaFields (fields : List SchemaField)
    (arrayConfigs : Option (List ArrayConfig)) : List SchemaField :=
  match fields with
  | [] => []
  | f :: fs =>
      reconstructOneField f arrayConfigs :: reconstructSchemaFields fs arrayConfigs

/-- The body of the `fields.map` callback in `reconstructSchemaFields`. -/
def reconstructOneField (f : SchemaField)
    (arrayConfigs : Option (List ArrayConfig)) : SchemaField :=
  match f with
  | .mk i n t ch gb =>
      let gb' :=
        if t = "array" then
          match arrayConfigs with
          | some cfgs =>
              match cfgs.find? (fun c => c.target = n) with
              | some c => jsOrUndef c.groupBy
              | none => gb
          | none => gb
        else gb
      let ch' :=
        match ch with
        | some l => some (reconstructSchemaFields l arrayConfigs)
        | none => ch
      .mk i n t ch' gb'

end

mutual

/-- With no array-configuration list the reconstruction is the identity. -/
theorem reconstructSchemaFields_none :
    ∀ fields : List SchemaField, reconstructSchemaFields fields none = fields
  | [] => by rw [reconstructSchemaFields]
  | f :: fs => by
      rw [reconstructSchemaFields, reconstructSchemaFields_none fs,
        reconstructOneField_none f]

/-- With no array-configuration list a single field is reconstructed to
itself. -/
theorem reconstructOneField_none :
    ∀ f : SchemaField, reconstructOneField f none = f
  | .mk i n t none gb => by rw [reconstructOneField]; simp
  | .mk i n t (some l) gb => by
      rw [reconstructOneField, reconstructSchemaFields_none l]; simp

end

/-- The reconstruction is the pointwise map of `reconstructOneField`. -/
theorem reconstructSchemaFields_eq_map (fields : List SchemaField)
    (cfgs : Option (List ArrayConfig)) :
    reconstructSchemaFields fields cfgs
      = fields.map (fun f => reconstructOneField f cfgs) := by
  induction fields with
  | nil => rw [reconstructSchemaFields]; rfl
  | cons f fs ih => rw [reconstructSchemaFields, ih]; rfl

/-- When no array-config entry targets the field's name, a field keeps its
`groupBy` (whatever its type), its identity data is copied, and children are
recursed into. -/
theorem reconstructOneField_no_match :
    ∀ (f : SchemaField) (cfgs : List ArrayConfig),
      cfgs.find? (fun c => c.target = f.name) = none →
      reconstructOneField f (some cfgs)
        = SchemaField.mk f.id f.name f.ftype
            ((f.children).map (fun l => reconstructSchemaFields l (some cfgs)))
            f.groupBy
  | .mk i n t ch gb, cfgs, hnone => by
      simp only [SchemaField.name] at hnone
      cases ch <;>
        · rw [reconstructOneField]
          rw [hnone]
          simp [SchemaField.id, SchemaField.name, SchemaField.ftype,
            SchemaField.children, SchemaField.groupBy]

/-- C4 counterexample: an `array`-typed field with a stale `groupBy` and no
matching array-config entry comes back with its `groupBy` preserved, not
cleared, contradicting the claim that `groupBy` is cleared in this case. -/
theorem reconstructSchemaFields_groupBy_not_cleared_cex :
    reconstructSchemaFields
        [SchemaField.mk "f1" "items" "array" (some []) (some "stale")]
        (some [ArrayConfig.mk "otherArray" (some "g")])
      = [SchemaField.mk "f1" "items" "array" (some []) (some "stale")]
    ∧ (SchemaField.mk "f1" "items" "array" (some [])
        (some "stale")).groupBy ≠ none := by
  constructor
  · rfl
  · simp [SchemaField.groupBy]

/-- C4 (amended): for every field list and array-configuration list, an
`array`-typed field with no matching array-config entry keeps its `groupBy`
from its own prior value (it is preserved, not cleared); the field's
identity is copied and recursion descends into its children; the transform
is pure (it is a function of its inputs). -/
theorem reconstructSchemaFields_no_match_preserves_groupBy
    (fields : List SchemaField) (cfgs : List ArrayConfig)
    (i : Nat) (h : i < fields.length)
    (harr : fields[i].ftype = "array")
    (hnone : cfgs.find? (fun c => c.target = fields[i].name) = none) :
    ∃ _h2 : i < (reconstructSchemaFields fields (some cfgs)).length,
      (reconstructSchemaFields fields (some cfgs))[i].groupBy = fields[i].groupBy
      ∧ (reconstructSchemaFields fields (some cfgs))[i].id = fields[i].id
      ∧ (reconstructSchemaFields fields (some cfgs))[i].children
          = (fields[i].children).map
              (fun l => reconstructSchemaFields l (some cfgs)) := by
  have hm := reconstructSchemaFields_eq_map fields (some cfgs)
  have hlen : (reconstructSchemaFields fields (some cfgs)).length
      = fields.length := by
    rw [hm]; simp
  refine ⟨by omega, ?_⟩
  have hg : ∀ _hh : i < (reconstructSchemaFields fields (some cfgs)).length,
      (reconstructSchemaFields fields (some cfgs))[i]
        = reconstructOneField fields[i] (some cfgs) := by
    intro _hh
    simp only [hm]
    rw [List.getElem_map]
  rw [hg (by omega), reconstructOneField_no_match fields[i] cfgs hnone]
  simp [SchemaField.id, SchemaField.groupBy, SchemaField.children]

/-- C4 witness: the amended preservation theorem applied to a concrete
field list and array-configuration list. -/
theorem reconstructSchemaFields_no_match_preserves_groupBy_witness :
    ([SchemaField.mk "f1" "items" "array" (some []) (some "stale")][0].ftype
        = "array")
    ∧ ([ArrayConfig.mk "otherArray" (some "g")].find?
        (fun c => c.target
          = [SchemaField.mk "f1" "items" "array" (some [])
              (some "stale")][0].name) = none)
    ∧ ∃ _h2 : 0 < (reconstructSchemaFields
          [SchemaField.mk "f1" "items" "array" (some []) (some "stale")]
          (some [ArrayConfig.mk "otherArray" (some "g")])).length,
        (reconstructSchemaFields
            [SchemaField.mk "f1" "items" "array" (some []) (some "stale")]
            (some [ArrayConfig.mk "otherArray" (some "g")]))[0].groupBy
          = [SchemaField.mk "f1" "items" "array" (some [])
              (some "stale")][0].groupBy
        ∧ (reconstructSchemaFields
            [SchemaField.mk "f1" "items" "array" (some []) (some "stale")]
            (some [ArrayConfig.mk "otherArray" (some "g")]))[0].id
          = [SchemaField.mk "f1" "items" "array" (some [])
              (some "stale")][0].id
        ∧ (reconstructSchemaFields
            [SchemaField.mk "f1" "items" "array" (some []) (some "stale")]
            (some [ArrayConfig.mk "otherArray" (some "g")]))[0].children
          = ([SchemaField.mk "f1" "items" "array" (some [])
              (some "stale")][0].children).map
              (fun l => reconstructSchemaFields l
                (some [ArrayConfig.mk "otherArray" (some "g")])) :=
  ⟨by rfl, by rfl,
    reconstructSchemaFields_no_match_preserves_groupBy _ _ 0 (by decide)
      (by rfl) (by rfl)⟩

/-! ## AI Suggestion Adapter (`convertMappingsToCanvas`, edge function)

Tagged union of oracle suggestions; the `unknown` constructor stands for any
unrecognized `mapping_type` string reaching the `default` arm of the
`switch`. -/

inductive MappingSuggestion where
  | direct (target_field source_field : String)
  | static (target_field value : String)
  | conditional (target_field : String) (conditions : List (String × String))
  | table (target_field source_field : String) (table : List (String × String))
  | date_conversion (target_field source_field format : String)
  | concat (target_field : String) (source_fields : List String)
      (separator : Option String)
  | split (target_field source_field delimiter : String) (index : Int)
  | skip (target_field : String)
  | unknown (target_field : String) (mapping_type : String)
deriving Repr, DecidableEq

def MappingSuggestion.target_field : MappingSuggestion → String
  | .direct tf _ => tf
  | .static tf _ => tf
  | .conditional tf _ => tf
  | .table tf _ _ => tf
  | .date_conversion tf _ _ => tf
  | .concat tf _ _ => tf
  | .split tf _ _ _ => tf
  | .skip tf => tf
  | .unknown tf _ => tf

/-- A canvas node produced by the edge function: `id`, `type`, `label` plus
the per-variant payload keys the code sets. -/
structure CanvasNode where
  id : String
  type : String
  label : String
  field : Option String := none
  value : Option String := none
  conditions : Option (List (String × String)) := none
  sourceField : Option String := none
  mappingTable : Option (List (String × String)) := none
  transformType : Option String := none
  format : Option String := none
  autoDetect : Option Bool := none
  sourceFields : Option (List String) := none
  separator : Option String := none
  delimiter : Option String := none
  index : Option Int := none
deriving Repr, DecidableEq

/-- A canvas edge `{type, from, to}` (`from` and `to` are Lean keywords,
hence `from_` and `to_`). -/
structure CanvasEdge where
  type : String
  from_ : String
  to_ : String
deriving Repr, DecidableEq

/-- Mutable state of the conversion loop: the `nodes` and `edges` output
arrays plus the `addedNodeIds` set. -/
structure CanvasState where
  nodes : List CanvasNode
  edges : List CanvasEdge
  added : Finset String

def targetNodeFor (tf : String) : CanvasNode :=
  { id := "target_" ++ tf, type := "TargetNode", label := tf,
    field := some tf }

def sourceNodeFor (f : String) : CanvasNode :=
  { id := "source_" ++ f, type := "SourceNode", label := f, field := some f }

/-- Push a node and record its id unless the id was already added. -/
def pushNodeIfNew (st : CanvasState) (n : CanvasNode) : CanvasState :=
  if n.id ∈ st.added then st
  else { st with nodes := st.nodes ++ [n], added := insert n.id st.added }

/-- The `addSource` helper closure: ensure the source node exists and return
its id. -/
def addSource (st : CanvasState) (f : String) : CanvasState × String :=
  (pushNodeIfNew st (sourceNodeFor f), "source_" ++ f)

/-- Loop body of the `concat` case: add one source node and the edge from it
into the concat node. -/
def concatStep (nodeId : String) (acc : CanvasState) (f : String) :
    CanvasState :=
  let p := addSource acc f
  { p.1 with edges := p.1.edges ++ [CanvasEdge.mk "edge" p.2 nodeId] }

/-- One iteration of the `for (const map of mappings)` loop of
`convertMappingsToCanvas`: the target node is pushed up front (before the
`switch`), then the variant-specific nodes and edges are added. -/
def processOne (st : CanvasState) (m : MappingSuggestion) : CanvasState :=
  let targetId := "target_" ++ m.target_field
  let st0 := pushNodeIfNew st (targetNodeFor m.target_field)
  match m with
  | .direct _ sf =>
      let p := addSource st0 sf
      { p.1 with edges := p.1.edges ++ [CanvasEdge.mk "direct" p.2 targetId] }
  | .static tf v =>
      let nodeId := "static_" ++ tf
      let node : CanvasNode :=
        { id := nodeId, type := "StaticValueNode",
          label := "Static: " ++ v, value := some v }
      let st1 := pushNodeIfNew st0 node
      { st1 with edges := st1.edges ++ [CanvasEdge.mk "edge" nodeId targetId] }
  | .conditional tf conds =>
      let nodeId := "if_" ++ tf
      let node : CanvasNode :=
        { id := nodeId, type := "IfThenNode",
          label := "Conditional", conditions := some conds }
      let st1 := pushNodeIfNew st0 node
      { st1 with edges := st1.edges ++ [CanvasEdge.mk "edge" nodeId targetId] }
  | .table tf sf tbl =>
      let nodeId := "convert_" ++ tf
      let p := addSource st0 sf
      let node : CanvasNode :=
        { id := nodeId, type := "ConversionMappingNode",
          label := "Convert: " ++ sf, sourceField := some sf,
          mappingTable := some tbl }
      let st1 :=
        { p.1 with edges := p.1.edges ++ [CanvasEdge.mk "edge" p.2 nodeId] }
      let st2 := pushNodeIfNew st1 node
      { st2 with edges := st2.edges ++ [CanvasEdge.mk "edge" nodeId targetId] }
  | .date_conversion tf sf fmt =>
      let nodeId := "date_" ++ tf
      let p := addSource st0 sf
      let node : CanvasNode :=
        { id := nodeId, type := "TransformNode",
          label := "Date: " ++ fmt, sourceField := some sf,
          transformType := some "dateFormat", format := some fmt,
          autoDetect := some true }
      let st1 :=
        { p.1 with edges := p.1.edges ++ [CanvasEdge.mk "edge" p.2 nodeId] }
      let st2 := pushNodeIfNew st1 node
      { st2 with edges := st2.edges ++ [CanvasEdge.mk "edge" nodeId targetId] }
  | .concat tf sfs sep =>
      let nodeId := "concat_" ++ tf
      let node : CanvasNode :=
        { id := nodeId, type := "ConcatTransformNode",
          label := "Concat: " ++ String.intercalate " + " sfs,
          sourceFields := some sfs, separator := some (sep.getD " ") }
      let st1 := sfs.foldl (concatStep nodeId) st0
      let st2 := pushNodeIfNew st1 node
      { st2 with edges := st2.edges ++ [CanvasEdge.mk "edge" nodeId targetId] }
  | .split tf sf delim idx =>
      let nodeId := "split_" ++ tf
      let p := addSource st0 sf
      let node : CanvasNode :=
        { id := nodeId, type := "SplitterTransformNode",
          label := "Split: " ++ sf ++ "[" ++ toString idx ++ "]",
          sourceField := some sf, delimiter := some delim, index := some idx }
      let st1 :=
        { p.1 with edges := p.1.edges ++ [CanvasEdge.mk "edge" p.2 nodeId] }
      let st2 := pushNodeIfNew st1 node
      { st2 with edges := st2.edges ++ [CanvasEdge.mk "edge" nodeId targetId] }
  | .skip _ => st0
  | .unknown _ _ => st0

structure CanvasResult where
  nodes : List CanvasNode
  edges : List CanvasEdge
deriving Repr, DecidableEq

/-- `convertMappingsToCanvas` from the `generate-ai-mapping` edge function:
fold the loop body over the suggestion list starting from empty outputs. -/
def convertMappingsToCanvas (mappings : List MappingSuggestion) :
    CanvasResult :=
  let st := mappings.foldl processOne (CanvasState.mk [] [] ∅)
  CanvasResult.mk st.nodes st.edges

/-- C6: the single concat suggestion
`(target fullname, sources Roepnaam/Achternaam, separator " ")` produces
exactly the four nodes `target_fullname`, `source_Roepnaam`,
`source_Achternaam`, `concat_fullname` (in production order) and exactly the
three edges `source_Roepnaam to concat_fullname`, `source_Achternaam to
concat_fullname`, `concat_fullname to target_fullname`. -/
theorem convertMappings_concat_example :
    ((convertMappingsToCanvas
        [MappingSuggestion.concat "fullname" ["Roepnaam", "Achternaam"]
          (some " ")]).nodes.map CanvasNode.id
      = ["target_fullname", "source_Roepnaam", "source_Achternaam",
          "concat_fullname"])
    ∧ (convertMappingsToCanvas
        [MappingSuggestion.concat "fullname" ["Roepnaam", "Achternaam"]
          (some " ")]).edges
      = [CanvasEdge.mk "edge" "source_Roepnaam" "concat_fullname",
         CanvasEdge.mk "edge" "source_Achternaam" "concat_fullname",
         CanvasEdge.mk "edge" "concat_fullname" "target_fullname"] := by
  constructor <;> rfl

/-- C5 counterexample: a lone `skip` suggestion still contributes its target
node (`target_x`) to the output (the target node is pushed before the
`switch` dispatches on `mapping_type`), contradicting "contributes zero
nodes". It does contribute zero edges. -/
theorem convertMappings_skip_adds_target_node_cex :
    ((convertMappingsToCanvas [MappingSuggestion.skip "x"]).nodes.map
        CanvasNode.id = ["target_x"])
    ∧ (convertMappingsToCanvas [MappingSuggestion.skip "x"]).edges = []
    ∧ (convertMappingsToCanvas [MappingSuggestion.skip "x"]).nodes ≠ [] := by
  refine ⟨rfl, rfl, ?_⟩
  decide

/-- Node ids of a node list, as a finite set. -/
def idsOf (nodes : List CanvasNode) : Finset String :=
  (nodes.map CanvasNode.id).toFinset

/-- Loop-state invariant: the recorded `addedNodeIds` set is exactly the set
of ids of the pushed nodes. -/
def CanvasState.wf (st : CanvasState) : Prop :=
  idsOf st.nodes = st.added

theorem pushNodeIfNew_edges (st : CanvasState) (n : CanvasNode) :
    (pushNodeIfNew st n).edges = st.edges := by
  unfold pushNodeIfNew; split <;> rfl

theorem pushNodeIfNew_added (st : CanvasState) (n : CanvasNode) :
    (pushNodeIfNew st n).added = insert n.id st.added := by
  unfold pushNodeIfNew; split
  · exact (Finset.insert_eq_self.mpr (by assumption)).symm
  · rfl

theorem pushNodeIfNew_wf (st : CanvasState) (n : CanvasNode) (h : st.wf) :
    (pushNodeIfNew st n).wf := by
  unfold CanvasState.wf at *
  unfold pushNodeIfNew
  split
  · exact h
  · rw [← h]
    ext x
    simp [idsOf]
    aesop

/-- Edges contributed by one suggestion (read off the loop body; independent
of the accumulated state). -/
def entryEdges : MappingSuggestion → List CanvasEdge
  | .direct tf sf =>
      [CanvasEdge.mk "direct" ("source_" ++ sf) ("target_" ++ tf)]
  | .static tf _ =>
      [CanvasEdge.mk "edge" ("static_" ++ tf) ("target_" ++ tf)]
  | .conditional tf _ =>
      [CanvasEdge.mk "edge" ("if_" ++ tf) ("target_" ++ tf)]
  | .table tf sf _ =>
      [CanvasEdge.mk "edge" ("source_" ++ sf) ("convert_" ++ tf),
       CanvasEdge.mk "edge" ("convert_" ++ tf) ("target_" ++ tf)]
  | .date_conversion tf sf _ =>
      [CanvasEdge.mk "edge" ("source_" ++ sf) ("date_" ++ tf),
       CanvasEdge.mk "edge" ("date_" ++ tf) ("target_" ++ tf)]
  | .concat tf sfs _ =>
      sfs.map (fun f => CanvasEdge.mk "edge" ("source_" ++ f) ("concat_" ++ tf))
        ++ [CanvasEdge.mk "edge" ("concat_" ++ tf) ("target_" ++ tf)]
  | .split tf sf _ _ =>
      [CanvasEdge.mk "edge" ("source_" ++ sf) ("split_" ++ tf),
       CanvasEdge.mk "edge" ("split_" ++ tf) ("target_" ++ tf)]
  | .skip _ => []
  | .unknown _ _ => []

/-- Node ids a suggestion tries to add (dedup happens globally through
`addedNodeIds`). -/
def entryIdList : MappingSuggestion → List String
  | .direct tf sf => ["target_" ++ tf, "source_" ++ sf]
  | .static tf _ => ["target_" ++ tf, "static_" ++ tf]
  | .conditional tf _ => ["target_" ++ tf, "if_" ++ tf]
  | .table tf sf _ => ["target_" ++ tf, "source_" ++ sf, "convert_" ++ tf]
  | .date_conversion tf sf _ =>
      ["target_" ++ tf, "source_" ++ sf, "date_" ++ tf]
  | .concat tf sfs _ =>
      ("target_" ++ tf) :: (sfs.map (fun f => "source_" ++ f) ++ ["concat_" ++ tf])
  | .split tf sf _ _ => ["target_" ++ tf, "source_" ++ sf, "split_" ++ tf]
  | .skip tf => ["target_" ++ tf]
  | .unknown tf _ => ["target_" ++ tf]

theorem concatStep_edges (nodeId : String) (st : CanvasState) (f : String) :
    (concatStep nodeId st f).edges
      = st.edges ++ [CanvasEdge.mk "edge" ("source_" ++ f) nodeId] := by
  simp [concatStep, addSource, pushNodeIfNew_edges]

theorem concatStep_added (nodeId : String) (st : CanvasState) (f : String) :
    (concatStep nodeId st f).added = insert ("source_" ++ f) st.added := by
  simp [concatStep, addSource, pushNodeIfNew_added, sourceNodeFor]

theorem concatStep_wf (nodeId : String) (st : CanvasState) (f : String)
    (h : st.wf) : (concatStep nodeId st f).wf := by
  have := pushNodeIfNew_wf st (sourceNodeFor f) h
  unfold CanvasState.wf at *
  simpa [concatStep, addSource] using this

theorem concatFold_edges (nodeId : String) (sfs : List String)
    (st : CanvasState) :
    (sfs.foldl (concatStep nodeId) st).edges
      = st.edges
        ++ sfs.map (fun f => CanvasEdge.mk "edge" ("source_" ++ f) nodeId) := by
  induction sfs generalizing st with
  | nil => simp
  | cons f fs ih =>
      rw [List.foldl_cons, ih, concatStep_edges]
      simp

theorem concatFold_added (nodeId : String) (sfs : List String)
    (st : CanvasState) :
    (sfs.foldl (concatStep nodeId) st).added
      = st.added ∪ (sfs.map (fun f => "source_" ++ f)).toFinset := by
  induction sfs generalizing st with
  | nil => simp
  | cons f fs ih =>
      rw [List.foldl_cons, ih, concatStep_added]
      ext x
      simp

theorem concatFold_wf (nodeId : String) (sfs : List String) (st : CanvasState)
    (h : st.wf) : (sfs.foldl (concatStep nodeId) st).wf := by
  induction sfs generalizing st with
  | nil => simpa
  | cons f fs ih =>
      rw [List.foldl_cons]
      exact ih _ (concatStep_wf nodeId st f h)

/-- Replacing only the `edges` component preserves the id invariant. -/
theorem wf_set_edges (st : CanvasState) (e : List CanvasEdge) (h : st.wf) :
    ({ st with edges := e } : CanvasState).wf := h

theorem processOne_edges (st : CanvasState) (m : MappingSuggestion) :
    (processOne st m).edges = st.edges ++ entryEdges m := by
  cases m <;>
    simp [processOne, entryEdges, addSource, pushNodeIfNew_edges,
      MappingSuggestion.target_field, concatFold_edges]

theorem processOne_added (st : CanvasState) (m : MappingSuggestion) :
    (processOne st m).added = st.added ∪ (entryIdList m).toFinset := by
  cases m <;>
    · ext x
      simp [processOne, entryIdList, addSource, pushNodeIfNew_added,
        targetNodeFor, sourceNodeFor, MappingSuggestion.target_field,
        concatFold_added]
      try aesop

theorem processOne_wf (st : CanvasState) (m : MappingSuggestion) (h : st.wf) :
    (processOne st m).wf := by
  cases m with
  | direct tf sf =>
      exact wf_set_edges _ _ (pushNodeIfNew_wf _ _ (pushNodeIfNew_wf _ _ h))
  | static tf v =>
      exact wf_set_edges _ _ (pushNodeIfNew_wf _ _ (pushNodeIfNew_wf _ _ h))
  | conditional tf c =>
      exact wf_set_edges _ _ (pushNodeIfNew_wf _ _ (pushNodeIfNew_wf _ _ h))
  | table tf sf tbl =>
      exact wf_set_edges _ _ (pushNodeIfNew_wf _ _ (wf_set_edges _ _
        (pushNodeIfNew_wf _ _ (pushNodeIfNew_wf _ _ h))))
  | date_conversion tf sf fmt =>
      exact wf_set_edges _ _ (pushNodeIfNew_wf _ _ (wf_set_edges _ _
        (pushNodeIfNew_wf _ _ (pushNodeIfNew_wf _ _ h))))
  | concat tf sfs sep =>
      exact wf_set_edges _ _ (pushNodeIfNew_wf _ _ (concatFold_wf _ _ _
        (pushNodeIfNew_wf _ _ h)))
  | split tf sf d i =>
      exact wf_set_edges _ _ (pushNodeIfNew_wf _ _ (wf_set_edges _ _
        (pushNodeIfNew_wf _ _ (pushNodeIfNew_wf _ _ h))))
  | skip tf => exact pushNodeIfNew_wf _ _ h
  | unknown tf mt => exact pushNodeIfNew_wf _ _ h

theorem foldl_processOne_edges (ms : List MappingSuggestion)
    (st : CanvasState) :
    (ms.foldl processOne st).edges = st.edges ++ ms.flatMap entryEdges := by
  induction ms generalizing st with
  | nil => simp
  | cons m rest ih => rw [List.foldl_cons, ih, processOne_edges]; simp

theorem foldl_processOne_added (ms : List MappingSuggestion)
    (st : CanvasState) :
    (ms.foldl processOne st).added
      = st.added ∪ (ms.flatMap entryIdList).toFinset := by
  induction ms generalizing st with
  | nil => simp
  | cons m rest ih =>
      rw [List.foldl_cons, ih, processOne_added]
      ext x
      simp

theorem foldl_processOne_wf (ms : List MappingSuggestion) (st : CanvasState)
    (h : st.wf) : (ms.foldl processOne st).wf := by
  induction ms generalizing st with
  | nil => simpa
  | cons m rest ih => rw [List.foldl_cons]; exact ih _ (processOne_wf _ _ h)

/-- The produced node-id set is the union of each entry's contributed ids. -/
theorem convertMappings_nodes_ids (ms : List MappingSuggestion) :
    idsOf (convertMappingsToCanvas ms).nodes
      = (ms.flatMap entryIdList).toFinset := by
  have hwf : (CanvasState.mk [] [] ∅).wf := by
    simp [CanvasState.wf, idsOf]
  have h1 := foldl_processOne_wf ms (CanvasState.mk [] [] ∅) hwf
  unfold CanvasState.wf at h1
  have h2 := foldl_processOne_added ms (CanvasState.mk [] [] ∅)
  show idsOf (ms.foldl processOne (CanvasState.mk [] [] ∅)).nodes = _
  rw [h1, h2]
  simp

/-- The produced edge list is the concatenation of each entry's edges. -/
theorem convertMappings_edges (ms : List MappingSuggestion) :
    (convertMappingsToCanvas ms).edges = ms.flatMap entryEdges := by
  show (ms.foldl processOne (CanvasState.mk [] [] ∅)).edges = _
  rw [foldl_processOne_edges]
  simp

/-- C5 (amended): a `skip` or unrecognized suggestion contributes zero edges
and no nodes other than its own target node (`target_<target_field>`, added
to the id set), and does not change the node ids produced for the other
entries. -/
theorem convertMappings_skip_semantics (ms1 ms2 : List MappingSuggestion)
    (tf mt : String) :
    ((convertMappingsToCanvas
          (ms1 ++ [MappingSuggestion.skip tf] ++ ms2)).edges
        = (convertMappingsToCanvas (ms1 ++ ms2)).edges
      ∧ idsOf (convertMappingsToCanvas
          (ms1 ++ [MappingSuggestion.skip tf] ++ ms2)).nodes
        = idsOf (convertMappingsToCanvas (ms1 ++ ms2)).nodes
            ∪ {"target_" ++ tf})
    ∧ ((convertMappingsToCanvas
          (ms1 ++ [MappingSuggestion.unknown tf mt] ++ ms2)).edges
        = (convertMappingsToCanvas (ms1 ++ ms2)).edges
      ∧ idsOf (convertMappingsToCanvas
          (ms1 ++ [MappingSuggestion.unknown tf mt] ++ ms2)).nodes
        = idsOf (convertMappingsToCanvas (ms1 ++ ms2)).nodes
            ∪ {"target_" ++ tf}) := by
  have hske : entryEdges (MappingSuggestion.skip tf) = [] := rfl
  have huke : entryEdges (MappingSuggestion.unknown tf mt) = [] := rfl
  have hski : entryIdList (MappingSuggestion.skip tf) = ["target_" ++ tf] := rfl
  have huki : entryIdList (MappingSuggestion.unknown tf mt)
      = ["target_" ++ tf] := rfl
  refine ⟨⟨?_, ?_⟩, ?_, ?_⟩
  · rw [convertMappings_edges, convertMappings_edges, List.flatMap_append,
      List.flatMap_append, List.flatMap_cons, hske, List.flatMap_append]
    simp
  · rw [convertMappings_nodes_ids, convertMappings_nodes_ids,
      List.flatMap_append, List.flatMap_append, List.flatMap_cons, hski,
      List.flatMap_append, List.flatMap_nil]
    ext x
    simp only [List.toFinset_append, Finset.mem_union, List.mem_toFinset,
      List.toFinset_cons, List.toFinset_nil, Finset.mem_insert,
      Finset.not_mem_empty, Finset.mem_singleton, List.append_nil, or_false,
      false_or]
    tauto
  · rw [convertMappings_edges, convertMappings_edges, List.flatMap_append,
      List.flatMap_append, List.flatMap_cons, huke, List.flatMap_append]
    simp
  · rw [convertMappings_nodes_ids, convertMappings_nodes_ids,
      List.flatMap_append, List.flatMap_append, List.flatMap_cons, huki,
      List.flatMap_append, List.flatMap_nil]
    ext x
    simp only [List.toFinset_append, Finset.mem_union, List.mem_toFinset,
      List.toFinset_cons, List.toFinset_nil, Finset.mem_insert,
      Finset.not_mem_empty, Finset.mem_singleton, List.append_nil, or_false,
      false_or]
    tauto

/-! ## Versioning and Activation Store (`MappingService`)

A persisted mapping record (the columns read or written by
`MappingService`); the embedded `ui_config`/`execution_config` payloads are
abstracted away because no claim inspects them. The backing store is a list
of records; supabase `update ... eq` calls become list maps and `insert`
becomes append. -/
structure MappingRecord where
  id : String
  user_id : String
  name : String
  version : String
  category : Option String
  description : Option String := none
  tags : List String := []
  transform_type : Option String := none
  mapping_group_id : String
  is_active : Bool
deriving Repr, DecidableEq

/-- `.eq('user_id', u).eq('name', n).eq('is_active', true)` lookup followed
by `maybeSingle()`: one matching row yields it, zero or several yield null
(the code ignores the maybeSingle error and reads `data` only). -/
def lookupExistingActive (db : List MappingRecord) (userId name : String) :
    Option MappingRecord :=
  match db.filter (fun r =>
      r.user_id = userId ∧ r.name = name ∧ r.is_active = true) with
  | [r] => some r
  | _ => none

/-- Deactivate every record of the `(user, mapping_group_id)` partition
(`update { is_active: false } .eq('user_id', u).eq('mapping_group_id', g)`). -/
def deactivateGroup (db : List MappingRecord) (userId groupId : String) :
    List MappingRecord :=
  db.map (fun r =>
    if r.user_id = userId ∧ r.mapping_group_id = groupId then
      { r with is_active := false }
    else r)

/-- `MappingService.saveMapping`. External effects are made explicit
parameters: `freshGroupId` stands for `crypto.randomUUID()`, `newId` for the
id the insert returns, `nextVersionRes` for the `get_next_version` RPC, and
`deactivateFails`/`insertFails` for collaborator failures of the two write
calls. Success returns the new store contents and the inserted record. -/
def saveMapping (db : List MappingRecord) (name : String)
    (userId : String) (category : String) (description : Option String)
    (tags : Option (List String)) (providedVersion : Option String)
    (transformType : String) (freshGroupId newId : String)
    (nextVersionRes : Except String String)
    (deactivateFails insertFails : Bool) :
    Except String (List MappingRecord × MappingRecord) :=
  if userId = "" then
    Except.error "User authentication is required to save mappings"
  else
    let existingMapping := lookupExistingActive db userId name
    let conflict :=
      db.filter (fun r => r.user_id = userId ∧ r.name = name.trim)
    if existingMapping = none ∧ conflict.length > 0 then
      Except.error "A mapping with this name already exists"
    else
      let finalCategory :=
        if category ≠ "General" then category
        else jsOr (existingMapping.bind (fun e => e.category)) "General"
      let finalDescription :=
        jsOrOpt description (existingMapping.bind (fun e => e.description))
      let finalTags :=
        (tags.orElse (fun _ => existingMapping.map (fun e => e.tags))).getD []
      let finalTransformType :=
        if transformType ≠ "JsonToJson" then transformType
        else jsOr (existingMapping.bind (fun e => e.transform_type))
          "JsonToJson"
      let mappingGroupId :=
        jsOr (existingMapping.map (fun e => e.mapping_group_id)) freshGroupId
      let versionRes : Except String String :=
        match providedVersion with
        | some v =>
            if v = "" then
              match nextVersionRes with
              | Except.error m =>
                  Except.error ("Failed to get next version: " ++ m)
              | Except.ok v2 => Except.ok v2
            else Except.ok v
        | none =>
            match nextVersionRes with
            | Except.error m =>
                Except.error ("Failed to get next version: " ++ m)
            | Except.ok v2 => Except.ok v2
      match versionRes with
      | Except.error m => Except.error m
      | Except.ok version =>
          match existingMapping, deactivateFails with
          | some _, true =>
              Except.error "Failed to deactivate previous versions"
          | ex, _ =>
              let db1 :=
                match ex with
                | some _ => deactivateGroup db userId mappingGroupId
                | none => db
              if insertFails then
                Except.error "Failed to save mapping"
              else
                let rec0 : MappingRecord :=
                  { id := newId, user_id := userId, name := name,
                    version := version, category := some finalCategory,
                    description := finalDescription, tags := finalTags,
                    transform_type := some finalTransformType,
                    mapping_group_id := mappingGroupId, is_active := true }
                Except.ok (db1 ++ [rec0], rec0)

/-- Bool test: the record is an active member of the `(user, group)`
partition. -/
def activeInPartition (userId groupId : String) (r : MappingRecord) : Bool :=
  r.user_id == userId && r.mapping_group_id == groupId && r.is_active

/-- Number of active records in the `(user, mapping_group_id)` partition. -/
def countActivePartition (db : List MappingRecord) (userId groupId : String) :
    Nat :=
  (db.filter (activeInPartition userId groupId)).length

theorem countActivePartition_append (l1 l2 : List MappingRecord)
    (u g : String) :
    countActivePartition (l1 ++ l2) u g
      = countActivePartition l1 u g + countActivePartition l2 u g := by
  simp [countActivePartition, List.filter_append]

/-- After `deactivateGroup`, the targeted partition holds no active record. -/
theorem countActive_deactivateGroup (db : List MappingRecord) (u g : String) :
    countActivePartition (deactivateGroup db u g) u g = 0 := by
  induction db with
  | nil => rfl
  | cons r rs ih =>
      unfold deactivateGroup at *
      unfold countActivePartition at *
      simp only [List.map_cons]
      by_cases hm : r.user_id = u ∧ r.mapping_group_id = g
      · rw [if_pos hm]
        have : activeInPartition u g { r with is_active := false } = false := by
          simp [activeInPartition]
        rw [List.filter_cons_of_neg (by simp [this])]
        exact ih
      · rw [if_neg hm]
        have : activeInPartition u g r = false := by
          simp only [activeInPartition]
          rcases not_and_or.mp hm with h1 | h2
          · simp [h1]
          · simp [h2]
        rw [List.filter_cons_of_neg (by simp [this])]
        exact ih

/-- A partition whose group id occurs nowhere in the store is empty. -/
theorem countActive_fresh (db : List MappingRecord) (u g : String)
    (hfresh : ∀ r ∈ db, r.mapping_group_id ≠ g) :
    countActivePartition db u g = 0 := by
  induction db with
  | nil => rfl
  | cons r rs ih =>
      unfold countActivePartition at *
      have : activeInPartition u g r = false := by
        simp only [activeInPartition]
        simp [hfresh r (by simp)]
      rw [List.filter_cons_of_neg (by simp [this])]
      exact ih (fun r hr => hfresh r (by simp [hr]))

/-- C2: after a successful `saveMapping`, exactly one record of the caller's
`(user, mapping_group_id)` partition is active — every prior version of the
group is deactivated before the insert — and a failing deactivation aborts
the operation (an error, before any insert). `crypto.randomUUID` freshness
is the explicit hypothesis `hfresh`. -/
theorem saveMapping_exactly_one_active
    (db : List MappingRecord) (name userId category : String)
    (description : Option String) (tags : Option (List String))
    (providedVersion : Option String) (transformType : String)
    (freshGroupId newId : String) (nextVersionRes : Except String String)
    (deactivateFails insertFails : Bool)
    (huser : userId ≠ "")
    (hfresh : ∀ r ∈ db, r.mapping_group_id ≠ freshGroupId) :
    (∀ db2 rec2,
        saveMapping db name userId category description tags providedVersion
            transformType freshGroupId newId nextVersionRes deactivateFails
            insertFails = Except.ok (db2, rec2) →
        countActivePartition db2 userId rec2.mapping_group_id = 1)
    ∧ (∀ e, lookupExistingActive db userId name = some e →
        deactivateFails = true →
        ∀ v, providedVersion = some v → v ≠ "" →
        saveMapping db name userId category description tags providedVersion
            transformType freshGroupId newId nextVersionRes deactivateFails
            insertFails
          = Except.error "Failed to deactivate previous versions") := by
  constructor
  · intro db2 rec2 h
    unfold saveMapping at h
    rw [if_neg huser] at h
    set E := lookupExistingActive db userId name with hE
    cases hEc : E with
    | none =>
        rw [hEc] at h
        simp only at h
        split at h
        · exact absurd h (by simp)
        · split at h
          · exact absurd h (by simp)
          · split at h
            · exact absurd h (by simp)
            · simp only [Except.ok.injEq, Prod.mk.injEq] at h
              obtain ⟨hdb2, hrec⟩ := h
              subst hdb2
              subst hrec
              rw [countActivePartition_append]
              simp only [Option.map_none', jsOr]
              rw [countActive_fresh db userId freshGroupId hfresh]
              simp [countActivePartition, activeInPartition]
    | some e =>
        rw [hEc] at h
        simp only at h
        split at h
        · exact absurd h (by simp)
        · split at h
          · exact absurd h (by simp)
          · split at h
            · exact absurd h (by simp)
            · split at h
              · exact absurd h (by simp)
              · simp only [Except.ok.injEq, Prod.mk.injEq] at h
                obtain ⟨hdb2, hrec⟩ := h
                subst hdb2
                subst hrec
                rw [countActivePartition_append]
                rw [countActive_deactivateGroup]
                simp [countActivePartition, activeInPartition]
  · intro e he hdf v hv hvne
    unfold saveMapping
    rw [if_neg huser]
    rw [he, hv, hdf]
    simp [hvne]

/-- C2 witness: the uniqueness theorem applied to a concrete empty store and
a concrete save call. -/
theorem saveMapping_exactly_one_active_witness :
    ("u" ≠ "")
    ∧ (∀ r ∈ ([] : List MappingRecord), r.mapping_group_id ≠ "g1")
    ∧ ((∀ db2 rec2,
          saveMapping [] "m" "u" "General" none none (some "v1.01")
              "JsonToJson" "g1" "id1" (Except.ok "v1.01") false false
            = Except.ok (db2, rec2) →
          countActivePartition db2 "u" rec2.mapping_group_id = 1)
      ∧ (∀ e, lookupExistingActive [] "u" "m" = some e →
          false = true →
          ∀ v, (some "v1.01" : Option String) = some v → v ≠ "" →
          saveMapping [] "m" "u" "General" none none (some "v1.01")
              "JsonToJson" "g1" "id1" (Except.ok "v1.01") false false
            = Except.error "Failed to deactivate previous versions")) :=
  ⟨by decide, by simp,
    saveMapping_exactly_one_active [] "m" "u" "General" none none
      (some "v1.01") "JsonToJson" "g1" "id1" (Except.ok "v1.01") false false
      (by decide) (by simp)⟩

/-- The deactivation query's category comparison in
`MappingService.activateVersion`: a truthy `category` uses
`.eq('category', category)` (string equality); a falsy one (absent or empty)
uses `.is('category', null)` (SQL-null equality). -/
def categoryFilterMatches (category rcat : Option String) : Bool :=
  match category with
  | some c => if c = "" then rcat == none else rcat == some c
  | none => rcat == none

/-- `MappingService.activateVersion`: deactivate every record matching
`(user, name, category)` with the null-aware category filter, then set
`is_active := true` on the record with the targeted `id` (and the same
user). Collaborator failures of the two update calls are not modelled (the
claim is about the success path). -/
def activateVersion (db : List MappingRecord) (id userId name : String)
    (category : Option String) : Except String (List MappingRecord) :=
  if userId = "" then
    Except.error "User authentication is required to update mappings"
  else
    let db1 := db.map (fun r =>
      if r.user_id = userId ∧ r.name = name
          ∧ categoryFilterMatches category r.category = true then
        { r with is_active := false }
      else r)
    let db2 := db1.map (fun r =>
      if r.id = id ∧ r.user_id = userId then { r with is_active := true }
      else r)
    Except.ok db2

/-- C3: activating version `v2` of a group (all of whose records carry the
group's `name` and a category accepted by the null-aware filter) while `v1`
is active leaves `v1` inactive, `v2` active, and no other version of the
group active. -/
theorem activateVersion_swaps_active
    (db db2 : List MappingRecord) (userId name : String)
    (category : Option String) (v1 v2 : MappingRecord)
    (huser : userId ≠ "")
    (hv1 : v1 ∈ db) (hv2 : v2 ∈ db)
    (hv1active : v1.is_active = true)
    (hne : v1.id ≠ v2.id)
    (hv1user : v1.user_id = userId) (hv2user : v2.user_id = userId)
    (hv1group : v1.mapping_group_id = v2.mapping_group_id)
    (hgroup : ∀ r ∈ db, r.user_id = userId →
        r.mapping_group_id = v2.mapping_group_id →
        r.name = name ∧ categoryFilterMatches category r.category = true)
    (hres : activateVersion db v2.id userId name category = Except.ok db2) :
    (∀ r ∈ db2, r.user_id = userId →
        r.mapping_group_id = v2.mapping_group_id →
        (r.is_active = true ↔ r.id = v2.id))
    ∧ (∃ r ∈ db2, r.id = v2.id ∧ r.user_id = userId
        ∧ r.mapping_group_id = v2.mapping_group_id ∧ r.is_active = true)
    ∧ (∃ r ∈ db2, r.id = v1.id ∧ r.user_id = userId
        ∧ r.mapping_group_id = v2.mapping_group_id ∧ r.is_active = false) := by
  unfold activateVersion at hres
  rw [if_neg huser] at hres
  simp only [Except.ok.injEq] at hres
  subst hres
  refine ⟨?_, ?_, ?_⟩
  · intro r hr hru hrg
    simp only [List.mem_map] at hr
    obtain ⟨s0, hs0, hrdef⟩ := hr
    obtain ⟨s, hs, hsdef⟩ := hs0
    by_cases hd : s.user_id = userId ∧ s.name = name
        ∧ categoryFilterMatches category s.category = true
    · rw [if_pos hd] at hsdef
      by_cases ha : s.id = v2.id ∧ s.user_id = userId
      · subst hsdef
        rw [if_pos (by simpa using ha)] at hrdef
        subst hrdef
        exact iff_of_true rfl ha.1
      · subst hsdef
        rw [if_neg (by simpa using ha)] at hrdef
        subst hrdef
        exact iff_of_false Bool.false_ne_true (fun hid => ha ⟨hid, hd.1⟩)
    · -- the record escaped deactivation: it cannot be in the partition
      rw [if_neg hd] at hsdef
      subst hsdef
      by_cases ha : s.id = v2.id ∧ s.user_id = userId
      · rw [if_pos ha] at hrdef
        subst hrdef
        exact iff_of_true rfl ha.1
      · rw [if_neg ha] at hrdef
        subst hrdef
        exfalso
        exact hd ⟨hru, (hgroup s hs hru hrg).1, (hgroup s hs hru hrg).2⟩
  · refine ⟨_, List.mem_map_of_mem _ (List.mem_map_of_mem _ hv2), ?_⟩
    have hd : v2.user_id = userId ∧ v2.name = name
        ∧ categoryFilterMatches category v2.category = true := by
      have := hgroup v2 hv2 hv2user rfl
      exact ⟨hv2user, this.1, this.2⟩
    rw [if_pos hd]
    rw [if_pos (by simp [hv2user])]
    simp [hv2user]
  · refine ⟨_, List.mem_map_of_mem _ (List.mem_map_of_mem _ hv1), ?_⟩
    have hd : v1.user_id = userId ∧ v1.name = name
        ∧ categoryFilterMatches category v1.category = true := by
      have := hgroup v1 hv1 hv1user hv1group
      exact ⟨hv1user, this.1, this.2⟩
    rw [if_pos hd]
    rw [if_neg (by simp [hne])]
    simp [hv1user, hv1group]

/-- Concrete records for the activation witness (a two-version group with a
SQL-null category). -/
def c3v1 : MappingRecord :=
  { id := "a", user_id := "u", name := "m", version := "v1",
    category := none, mapping_group_id := "g", is_active := true }

def c3v2 : MappingRecord :=
  { id := "b", user_id := "u", name := "m", version := "v2",
    category := none, mapping_group_id := "g", is_active := false }

/-- C3 witness: the activation theorem applied to a concrete two-version
group whose category is absent (exercising the SQL-null comparison path). -/
theorem activateVersion_swaps_active_witness :
    ("u" ≠ "")
    ∧ activateVersion [c3v1, c3v2] c3v2.id "u" "m" none
        = Except.ok [{ c3v1 with is_active := false },
            { c3v2 with is_active := true }]
    ∧ ((∀ r ∈ [{ c3v1 with is_active := false },
            { c3v2 with is_active := true }], r.user_id = "u" →
          r.mapping_group_id = c3v2.mapping_group_id →
          (r.is_active = true ↔ r.id = c3v2.id))
      ∧ (∃ r ∈ [{ c3v1 with is_active := false },
            { c3v2 with is_active := true }], r.id = c3v2.id
          ∧ r.user_id = "u" ∧ r.mapping_group_id = c3v2.mapping_group_id
          ∧ r.is_active = true)
      ∧ (∃ r ∈ [{ c3v1 with is_active := false },
            { c3v2 with is_active := true }], r.id = c3v1.id
          ∧ r.user_id = "u" ∧ r.mapping_group_id = c3v2.mapping_group_id
          ∧ r.is_active = false)) :=
  ⟨by decide, by rfl,
    activateVersion_swaps_active [c3v1, c3v2] _ "u" "m" none c3v1 c3v2
      (by decide) (by simp) (by simp) (by rfl) (by decide) (by rfl) (by rfl)
      (by rfl) (by decide) (by rfl)⟩

/-! ## Canvas import auto-expansion (`handleImportMapping`, Pipeline)

Edges as the canvas holds them (`@xyflow/react`): optional handles. -/
structure RawEdge where
  id : String
  source : String
  sourceHandle : Option String := none
  target : String
  targetHandle : Option String := none
deriving Repr, DecidableEq

/-- The regex replace `parentPath.replace(/\[.*?\]/g, '')`: every lazily
matched bracketed segment is removed; an unmatched `[` (no later `]`) is
kept verbatim. Implemented with a fuel argument (one unit per consumed
character) to keep the definition structurally recursive and executable;
the fuel `l.length` is always sufficient. -/
def removeBracketSegsFuel : Nat → List Char → List Char
  | 0, l => l
  | _ + 1, [] => []
  | fuel + 1, c :: rest =>
      if c = '[' then
        match rest.findIdx? (fun d => d = ']') with
        | some k => removeBracketSegsFuel fuel (rest.drop (k + 1))
        | none => c :: rest
      else c :: removeBracketSegsFuel fuel rest

def removeBracketSegs (l : List Char) : List Char :=
  removeBracketSegsFuel l.length l

/-- JS `fieldPath.split('.')` on character lists (structurally recursive so
that concrete inputs evaluate in the kernel). -/
def splitOnDot : List Char → List (List Char)
  | [] => [[]]
  | c :: rest =>
      if c = '.' then [] :: splitOnDot rest
      else
        match splitOnDot rest with
        | [] => [[c]]
        | p :: ps => (c :: p) :: ps

/-- `pathParts.slice(0, i + 1).join('.')`. -/
def joinDots : List (List Char) → List Char
  | [] => []
  | [p] => p
  | p :: ps => p ++ '.' :: joinDots ps

/-- The per-edge path analysis of `handleImportMapping`: split the
`sourceHandle` on dots, and for each proper prefix (all parts but the last)
join it back, strip bracketed array indices, and keep it when non-empty
(`if (cleanPath)`). -/
def expansionPathsOf (fieldPath : String) : List String :=
  let pathParts := splitOnDot fieldPath.toList
  (List.range (pathParts.length - 1)).filterMap fun i =>
    let parentPath := joinDots (pathParts.take (i + 1))
    let cleanPath := removeBracketSegs parentPath
    if cleanPath = [] then none else some (String.mk cleanPath)

/-- JS `Set.add`: append when not yet present. -/
def setAdd (l : List String) (x : String) : List String :=
  if x ∈ l then l else l ++ [x]

/-- `if (!sourceFieldsToExpand.has(nodeId)) set(nodeId, new Set())`. -/
def ensureEntry (m : List (String × List String)) (nodeId : String) :
    List (String × List String) :=
  if m.any (fun p => p.1 = nodeId) then m else m ++ [(nodeId, [])]

/-- `sourceFieldsToExpand.get(nodeId).add(cleanPath)`. -/
def addToEntry (m : List (String × List String)) (nodeId path : String) :
    List (String × List String) :=
  m.map (fun p => if p.1 = nodeId then (p.1, setAdd p.2 path) else p)

/-- One iteration of the edge loop: an edge with a falsy `sourceHandle`
contributes nothing (it is only logged); otherwise its cleaned ancestor
paths are added to the owning source node's expansion set. -/
def processEdgeExpansion (m : List (String × List String)) (e : RawEdge) :
    List (String × List String) :=
  match e.sourceHandle with
  | none => m
  | some h =>
      if h = "" then m
      else
        let m1 := ensureEntry m e.source
        (expansionPathsOf h).foldl
          (fun acc p => addToEntry acc e.source p) m1

/-- The `sourceFieldsToExpand` map computed by `handleImportMapping` over
all imported edges. -/
def computeSourceFieldsToExpand (edges : List RawEdge) :
    List (String × List String) :=
  edges.foldl processEdgeExpansion []

/-- C9: an imported edge with `sourceHandle = "items[2].address.city"` marks
exactly the index-stripped proper prefixes `items` and `items.address`
(never `items[2]` or `items[2].address`) on its owning source node, and an
edge without a `sourceHandle` contributes no expansion entry. -/
theorem importExpansion_strips_array_indices (eid s t : String)
    (th : Option String) :
    computeSourceFieldsToExpand
        [RawEdge.mk eid s (some "items[2].address.city") t th]
      = [(s, ["items", "items.address"])]
    ∧ computeSourceFieldsToExpand [RawEdge.mk eid s none t th] = [] := by
  constructor
  · show processEdgeExpansion [] (RawEdge.mk eid s
        (some "items[2].address.city") t th) = _
    show (expansionPathsOf "items[2].address.city").foldl
        (fun acc p => addToEntry acc s p) [(s, [])] = _
    have hp : expansionPathsOf "items[2].address.city"
        = ["items", "items.address"] := by rfl
    rw [hp]
    simp [addToEntry, setAdd]
  · rfl

/-! ## AI edge function: oracle response extraction (`serve`) -/

/-- JS `String.prototype.indexOf` for a single character: first index or
`-1`. -/
def jsIndexOf (s : String) (c : Char) : Int :=
  match s.toList.findIdx? (fun d => d = c) with
  | some n => (n : Int)
  | none => -1

/-- JS `String.prototype.lastIndexOf` for a single character. -/
def jsLastIndexOf (s : String) (c : Char) : Int :=
  match s.toList.reverse.findIdx? (fun d => d = c) with
  | some k => (s.toList.length : Int) - 1 - (k : Int)
  | none => -1

/-- JS `String.prototype.slice` index normalization: negative indices count
from the end and both ends clamp to `[0, length]`. -/
def jsNormSliceIdx (len i : Int) : Int :=
  if i < 0 then max (len + i) 0 else min i len

/-- JS `s.slice(a, b)`. -/
def jsSlice (s : String) (a b : Int) : String :=
  String.mk ((s.toList.drop (jsNormSliceIdx s.toList.length a).toNat).take
    ((jsNormSliceIdx s.toList.length b)
      - (jsNormSliceIdx s.toList.length a)).toNat)

/-- `raw.slice(raw.indexOf('['), raw.lastIndexOf(']') + 1)` from the edge
function. -/
def extractJsonString (raw : String) : String :=
  jsSlice raw (jsIndexOf raw '[') (jsLastIndexOf raw ']' + 1)

/-- The parse-and-answer tail of the edge function: `JSON.parse` is the
external collaborator `parse`; any parse failure (malformed JSON, or the
empty/garbage slice produced when the brackets are missing) is caught and
surfaced as one error result, never a partial mapping list. -/
def handleAiResponse (parse : String → Option (List MappingSuggestion))
    (raw : String) : Except String (List MappingSuggestion) :=
  match parse (extractJsonString raw) with
  | some parsed => Except.ok parsed
  | none => Except.error "Unexpected end of JSON input"

theorem jsNormSliceIdx_of_inrange (len i : Int) (h0 : 0 ≤ i) (h1 : i ≤ len) :
    jsNormSliceIdx len i = i := by
  unfold jsNormSliceIdx
  rw [if_neg (by omega)]
  omega

theorem findIdx?_eq_none_of_not_mem (c : Char) (l : List Char)
    (h : c ∉ l) : l.findIdx? (fun d => d = c) = none := by
  induction l with
  | nil => rfl
  | cons a t ih =>
      have ha : ¬ (a = c) := fun hac => h (hac ▸ List.mem_cons_self a t)
      have ht : c ∉ t := fun hct => h (List.mem_cons_of_mem a hct)
      simp [List.findIdx?_cons, ha, ih ht]

theorem findIdx?_mem_some (c : Char) (l : List Char) (h : c ∈ l) :
    ∃ j, l.findIdx? (fun d => d = c) = some j ∧ j < l.length := by
  induction l with
  | nil => cases h
  | cons a t ih =>
      by_cases hac : a = c
      · exact ⟨0, by simp [List.findIdx?_cons, hac], by simp⟩
      · have hct : c ∈ t := by
          rcases List.mem_cons.mp h with h1 | h1
          · exact absurd h1.symm hac
          · exact h1
        obtain ⟨j, hj, hjl⟩ := ih hct
        refine ⟨j + 1, by simp [List.findIdx?_cons, hac, hj], ?_⟩
        simp only [List.length_cons]
        omega

theorem findIdx?_start_le (p : Char → Bool) (t : List Char) :
    ∀ s j : Nat, List.findIdx? p t s = some j → s ≤ j := by
  induction t with
  | nil =>
      intro s j h
      simp [List.findIdx?] at h
  | cons a t ih =>
      intro s j h
      rw [List.findIdx?_cons] at h
      by_cases hpa : p a
      · rw [if_pos hpa] at h
        injection h with h
        omega
      · rw [if_neg hpa] at h
        have hs := ih (s + 1) j h
        omega

theorem findIdx?_zero_head (c a : Char) (t : List Char)
    (h : (a :: t).findIdx? (fun d => d = c) = some 0) : a = c := by
  by_cases hac : a = c
  · exact hac
  · rw [List.findIdx?_cons, if_neg (by simp [hac])] at h
    have hs := findIdx?_start_le (fun d => d = c) t (0 + 1) 0 h
    omega

theorem jsNormSliceIdx_nonneg (len i : Int) (hlen : 0 ≤ len) :
    0 ≤ jsNormSliceIdx len i := by
  unfold jsNormSliceIdx
  split <;> omega

/-- A response text without any `]` yields the empty slice: `lastIndexOf`
is `-1`, so the end index normalizes to `0`. -/
theorem extractJsonString_no_rbracket (raw : String)
    (h : ']' ∉ raw.toList) : extractJsonString raw = "" := by
  have hrev : ']' ∉ raw.toList.reverse := by simpa using h
  have hfind : raw.toList.reverse.findIdx? (fun d => d = ']') = none :=
    findIdx?_eq_none_of_not_mem _ _ hrev
  unfold extractJsonString jsLastIndexOf
  rw [hfind]
  dsimp only
  unfold jsSlice
  have h0 : jsNormSliceIdx (raw.toList.length : Int) (-1 + 1) = 0 := by
    unfold jsNormSliceIdx
    rw [if_neg (by omega)]
    omega
  have hst : 0 ≤ jsNormSliceIdx (raw.toList.length : Int)
      (jsIndexOf raw '[') :=
    jsNormSliceIdx_nonneg _ _ (by omega)
  rw [h0]
  have hz : ((0 : Int) - jsNormSliceIdx (raw.toList.length : Int)
      (jsIndexOf raw '[')).toNat = 0 := by omega
  rw [hz, List.take_zero]

/-- A response text lacking either array bracket degenerates the slice
`raw.slice(indexOf('['), lastIndexOf(']') + 1)` to `""` or to the lone
tail `"]"`: without `[`, `indexOf` is `-1` and the start index normalizes
to `length - 1`, so at most the final character survives, and it does only
when that character is the last `]`; without `]` the slice is empty. -/
theorem extractJsonString_missing_bracket (raw : String)
    (h : '[' ∉ raw.toList ∨ ']' ∉ raw.toList) :
    extractJsonString raw = "" ∨ extractJsonString raw = "]" := by
  by_cases hr : ']' ∈ raw.toList
  · rcases h with h | h
    · have hlen1 : 0 < raw.toList.length :=
        List.length_pos.mpr (List.ne_nil_of_mem hr)
      have hrevmem : ']' ∈ raw.toList.reverse := by simpa using hr
      obtain ⟨jr, hjr, hjrlt⟩ :=
        findIdx?_mem_some ']' raw.toList.reverse hrevmem
      have hjrlen : jr < raw.toList.length := by simpa using hjrlt
      have hnofind : raw.toList.findIdx? (fun d => d = '[') = none :=
        findIdx?_eq_none_of_not_mem _ _ h
      unfold extractJsonString jsIndexOf jsLastIndexOf
      rw [hnofind, hjr]
      dsimp only
      unfold jsSlice
      have hst : jsNormSliceIdx (raw.toList.length : Int) (-1)
          = (raw.toList.length : Int) - 1 := by
        unfold jsNormSliceIdx
        rw [if_pos (by omega)]
        omega
      have hen : jsNormSliceIdx (raw.toList.length : Int)
          ((raw.toList.length : Int) - 1 - (jr : Int) + 1)
          = (raw.toList.length : Int) - (jr : Int) := by
        unfold jsNormSliceIdx
        rw [if_neg (by omega)]
        omega
      rw [hst, hen]
      by_cases hjr0 : jr = 0
      · right
        rw [hjr0] at hjr
        obtain ⟨a, t, hrev⟩ : ∃ a t, raw.toList.reverse = a :: t := by
          cases hc : raw.toList.reverse with
          | nil =>
              rw [hc] at hrevmem
              cases hrevmem
          | cons a t => exact ⟨a, t, rfl⟩
        rw [hrev] at hjr
        have ha : a = ']' := findIdx?_zero_head ']' a t hjr
        have hlist : raw.toList = t.reverse ++ [a] := by
          have hcg := congrArg List.reverse hrev
          simpa using hcg
        have hlen : raw.toList.length = t.length + 1 := by
          rw [hlist]
          simp
        have h1 : ((raw.toList.length : Int) - 1).toNat = t.length := by
          omega
        have h2 : (((raw.toList.length : Int) - (jr : Int))
            - ((raw.toList.length : Int) - 1)).toNat = 1 := by omega
        rw [h1, h2, hlist,
          show t.length = t.reverse.length from (List.length_reverse t).symm,
          List.drop_left, ha]
        rfl
      · left
        have h2 : (((raw.toList.length : Int) - (jr : Int))
            - ((raw.toList.length : Int) - 1)).toNat = 0 := by omega
        rw [h2, List.take_zero]
    · exact absurd hr h
  · exact Or.inl (extractJsonString_no_rbracket raw hr)

/-- C8: when the response text has both brackets, the oracle's mapping list
is taken from the substring bounded by its first `[` and its last `]`; a
response lacking either array bracket degenerates the slice to `""` or the
lone `"]"`, neither of which any JSON parser accepts as an array, so such a
response is fatal for the single generation request — one error result, no
partial list — exactly as any other parse failure on the slice is; a parse
success returns exactly the parsed list. -/
theorem aiResponse_bracket_extraction
    (parse : String → Option (List MappingSuggestion)) (raw : String) :
    (∀ i k : Nat,
      raw.toList.findIdx? (fun d => d = '[') = some i →
      raw.toList.reverse.findIdx? (fun d => d = ']') = some k →
      i + k + 1 ≤ raw.toList.length →
      extractJsonString raw
        = String.mk ((raw.toList.drop i).take (raw.toList.length - k - i)))
    ∧ (('[' ∉ raw.toList ∨ ']' ∉ raw.toList) →
        extractJsonString raw = "" ∨ extractJsonString raw = "]")
    ∧ (('[' ∉ raw.toList ∨ ']' ∉ raw.toList) →
        parse "" = none → parse "]" = none →
        handleAiResponse parse raw
          = Except.error "Unexpected end of JSON input")
    ∧ (parse (extractJsonString raw) = none →
        handleAiResponse parse raw
          = Except.error "Unexpected end of JSON input")
    ∧ (∀ ms, parse (extractJsonString raw) = some ms →
        handleAiResponse parse raw = Except.ok ms) := by
  refine ⟨?_, ?_, ?_, ?_, ?_⟩
  · intro i k hfirst hlastrev hle
    have hi : i < raw.toList.length := by omega
    have hk : k < raw.toList.length := by omega
    unfold extractJsonString jsIndexOf jsLastIndexOf
    rw [hfirst, hlastrev]
    dsimp only
    unfold jsSlice
    rw [jsNormSliceIdx_of_inrange _ _ (by omega) (by omega),
      jsNormSliceIdx_of_inrange _ _ (by omega) (by omega)]
    congr 2
    all_goals omega
  · exact extractJsonString_missing_bracket raw
  · intro hmb hp0 hp1
    rcases extractJsonString_missing_bracket raw hmb with he | he
    · unfold handleAiResponse
      rw [he, hp0]
    · unfold handleAiResponse
      rw [he, hp1]
  · intro hp
    unfold handleAiResponse
    rw [hp]
  · intro ms hp
    unfold handleAiResponse
    rw [hp]

/-- C8 witness: the theorem applied at the bracketed response `"ab[1,2]cd"`
(the extraction substring, the parse-failure error, and a parse success) and
at the bracket-free response `"no json here"` (degenerate slice, fatal
single error result). -/
theorem aiResponse_bracket_extraction_witness :
    (extractJsonString "ab[1,2]cd"
      = String.mk (("ab[1,2]cd".toList.drop 2).take
          ("ab[1,2]cd".toList.length - 2 - 2)))
    ∧ (extractJsonString "no json here" = ""
        ∨ extractJsonString "no json here" = "]")
    ∧ handleAiResponse (fun _ => none) "no json here"
        = Except.error "Unexpected end of JSON input"
    ∧ handleAiResponse (fun _ => none) "ab[1,2]cd"
        = Except.error "Unexpected end of JSON input"
    ∧ handleAiResponse (fun _ => some []) "ab[1,2]cd" = Except.ok [] :=
  ⟨(aiResponse_bracket_extraction (fun _ => none) "ab[1,2]cd").1 2 2
      (by decide) (by decide) (by decide),
   (aiResponse_bracket_extraction (fun _ => none) "no json here").2.1
      (Or.inl (by decide)),
   (aiResponse_bracket_extraction (fun _ => none) "no json here").2.2.1
      (Or.inl (by decide)) rfl rfl,
   (aiResponse_bracket_extraction (fun _ => none) "ab[1,2]cd").2.2.2.1 rfl,
   (aiResponse_bracket_extraction (fun _ => some []) "ab[1,2]cd").2.2.2.2 []
      rfl⟩

/-! ## Shared raw canvas node model (`@xyflow/react` nodes as the exporters
see them) -/

structure Position where
  x : Int
  y : Int
deriving Repr, DecidableEq

structure StaticEntry where
  id : String
  value : String
deriving Repr, DecidableEq

/-- One `{from, to}` row of a conversion-mapping node's table. -/
structure MapEntry where
  from_ : String
  to_ : String
deriving Repr, DecidableEq

/-- Coalesce rules are pure pass-through payloads in every embedded
function, so they are modelled opaquely. -/
structure CRule where
  payload : String
deriving Repr, DecidableEq

/-- Sample and output rows are pure pass-through payloads. -/
abbrev JsonRow := List (String × String)

/-- A flat parameters object: every key any embedded code path reads or
writes on a `parameters`/`config` object. An absent key is `none`. -/
structure Params where
  operator : Option String := none
  compareValue : Option String := none
  thenValue : Option String := none
  elseValue : Option String := none
  values : Option (List StaticEntry) := none
  delimiter : Option String := none
  splitIndex : Option Int := none
  rules : Option (List CRule) := none
  defaultValue : Option String := none
  outputType : Option String := none
  stringOperation : Option String := none
  operation : Option String := none
  substringStart : Option Int := none
  substringEnd : Option Int := none
deriving Repr, DecidableEq

/-- A config object: flat keys plus one optional nested `parameters` object
(the code dereferences at most `config.parameters.<key>`). -/
structure Cfg extends Params where
  parameters : Option Params := none
deriving Repr, DecidableEq

/-- The dynamic `node.data` bag: every key any embedded function reads. -/
structure NodeData where
  label : Option String := none
  fields : Option (List SchemaField) := none
  data : Option (List JsonRow) := none
  fieldValues : Option (List (String × String)) := none
  transformType : Option String := none
  operator : Option String := none
  compareValue : Option String := none
  thenValue : Option String := none
  elseValue : Option String := none
  values : Option (List StaticEntry) := none
  delimiter : Option String := none
  splitIndex : Option Int := none
  rules : Option (List CRule) := none
  defaultValue : Option String := none
  outputType : Option String := none
  inputValues : Option (List (String × String)) := none
  config : Option Cfg := none
  mappings : Option (List MapEntry) := none

structure RawNode where
  id : String
  type : String
  position : Position
  data : NodeData

/-! ## Execution exporter (`exportExecutionMapping`) -/

structure IfCond where
  operator : String
  value : String
deriving Repr, DecidableEq

/-- The `transform` block attached to a `map` mapping: the generic shape
`{type, operation, parameters}`, the substring special case
`{type: substring, start, end}`, or the splitter `{type: split, delimiter,
index}` (the constant `type` strings are carried by the constructors). -/
inductive TransformInfo where
  | generic (ttype operation : String) (parameters : Cfg)
  | substring (start : Int) (endVal : Option Int)
  | splitInfo (delimiter : String) (index : Int)
deriving Repr, DecidableEq

/-- One resolved execution rule (`from` is null only for `static`; Lean
keywords force the `_`/`Val` suffixes on `from`, `to`, `then`, `else`,
`if`). -/
structure ExecutionMapping where
  from_ : Option String
  to_ : String
  type : String
  value : Option String := none
  ifCond : Option IfCond := none
  thenVal : Option String := none
  elseVal : Option String := none
  map : Option (List (String × String)) := none
  transform : Option TransformInfo := none
deriving Repr, DecidableEq

/-- JS object assignment `mapObject[mapping.from] = mapping.to`. -/
def objInsert (m : List (String × String)) (k v : String) :
    List (String × String) :=
  if m.any (fun p => p.1 = k) then
    m.map (fun p => if p.1 = k then (k, v) else p)
  else m ++ [(k, v)]

def buildMapObject (entries : List MapEntry) : List (String × String) :=
  entries.foldl (fun acc x => objInsert acc x.from_ x.to_) []

/-- Resolution of one incoming edge of a target field (the body of the
innermost `forEach` of `exportExecutionMapping`). `none` means the edge is
dropped: unknown source node, or an origin type outside
`source`/`staticValue`/`ifThen`/`conversionMapping` (the bare `return` of
the final `else`). -/
def resolveEdge (nodes : List RawNode) (edges : List RawEdge)
    (targetField : SchemaField) (edge : RawEdge) : Option ExecutionMapping :=
  match nodes.find? (fun n => n.id = edge.source) with
  | none => none
  | some sourceNode =>
      if sourceNode.type = "source" then
        let sourceField :=
          (sourceNode.data.fields.getD []).find?
            (fun f => some f.id = edge.sourceHandle)
        some { from_ := some (jsOrChain2 (sourceField.map SchemaField.name)
                 edge.sourceHandle ""),
               to_ := targetField.name, type := "direct" }
      else if sourceNode.type = "staticValue" then
        let staticValue :=
          (sourceNode.data.values.getD []).find?
            (fun v => some v.id = edge.sourceHandle)
        some { from_ := none, to_ := targetField.name, type := "static",
               value := some (jsOr (staticValue.map StaticEntry.value) "") }
      else if sourceNode.type = "ifThen" then
        let ifThenInputEdge :=
          edges.find? (fun e2 => e2.target = sourceNode.id)
        let inputSourceNode := ifThenInputEdge.bind
          (fun ie => nodes.find? (fun n => n.id = ie.source))
        let inputField :=
          match inputSourceNode with
          | some n =>
              match n.data.fields with
              | some fl => fl.find? (fun f : SchemaField =>
                  some f.id = ifThenInputEdge.bind RawEdge.sourceHandle)
              | none => none
          | none => none
        let cond : IfCond :=
          { operator := sourceNode.data.operator.getD "=",
            value := sourceNode.data.compareValue.getD "" }
        some { from_ := some (jsOr (inputField.map SchemaField.name) ""),
               to_ := targetField.name, type := "ifThen",
               ifCond := some cond,
               thenVal := some (sourceNode.data.thenValue.getD ""),
               elseVal := some (sourceNode.data.elseValue.getD "") }
      else if sourceNode.type = "conversionMapping" then
        let mapObject := buildMapObject (sourceNode.data.mappings.getD [])
        let conversionInputEdge :=
          edges.find? (fun e2 => e2.target = sourceNode.id)
        let inputNode := conversionInputEdge.bind
          (fun ie => nodes.find? (fun n => n.id = ie.source))
        let osfAndT : String × Option TransformInfo :=
          match inputNode with
          | none => ("", none)
          | some n =>
              if n.type = "source" then
                let inputField :=
                  match n.data.fields with
                  | some fl => fl.find? (fun f : SchemaField =>
                      some f.id = conversionInputEdge.bind RawEdge.sourceHandle)
                  | none => none
                (jsOr (inputField.map SchemaField.name) "", none)
              else if n.type = "transform" ∨ n.type = "splitterTransform" then
                let transformInputEdge :=
                  edges.find? (fun e2 => e2.target = n.id)
                let transformSourceNode := transformInputEdge.bind
                  (fun ie => nodes.find? (fun m => m.id = ie.source))
                match transformSourceNode with
                | some m =>
                    if m.type = "source" then
                      let transformSourceField :=
                        match m.data.fields with
                        | some fl => fl.find? (fun f : SchemaField =>
                            some f.id
                              = transformInputEdge.bind RawEdge.sourceHandle)
                        | none => none
                      let osf :=
                        jsOr (transformSourceField.map SchemaField.name) ""
                      let tinfo : Option TransformInfo :=
                        if n.type = "transform" then
                          let config := n.data.config.getD {}
                          if config.stringOperation = some "substring" then
                            some (TransformInfo.substring
                              (jsOrInt config.substringStart 0)
                              config.substringEnd)
                          else
                            some (TransformInfo.generic
                              (jsOr n.data.transformType "transform")
                              (jsOrChain2 config.stringOperation
                                config.operation "unknown")
                              config)
                        else
                          some (TransformInfo.splitInfo
                            (jsOr n.data.delimiter ",")
                            (jsOrInt n.data.splitIndex 0))
                      (osf, tinfo)
                    else ("", none)
                | none => ("", none)
              else ("", none)
        some { from_ := some osfAndT.1, to_ := targetField.name,
               type := "map", map := some mapObject,
               transform := osfAndT.2 }
      else none

structure ExecutionMappingConfig where
  name : String
  version : String
  mappings : List ExecutionMapping
deriving Repr, DecidableEq

/-- `exportExecutionMapping`: for every target node, every one of its
fields, and every edge into that field's handle, resolve one mapping;
unresolved edges contribute nothing. The constant `metadata` block is
omitted. -/
def exportExecutionMapping (nodes : List RawNode) (edges : List RawEdge)
    (name : String) : ExecutionMappingConfig :=
  { name := name, version := "1.0.0",
    mappings :=
      (nodes.filter (fun n => n.type = "target")).flatMap (fun targetNode =>
        (targetNode.data.fields.getD []).flatMap (fun targetField =>
          (edges.filter (fun e => e.target = targetNode.id
              ∧ e.targetHandle = some targetField.id)).filterMap
            (resolveEdge nodes edges targetField))) }

/-- The `console.warn` output of `exportExecutionMapping`: the function
contains no `console.warn` call (unknown origin types are dropped by a bare
`return`), so the recorded warning list is empty by construction. -/
def exportExecutionWarnings (_nodes : List RawNode) (_edges : List RawEdge) :
    List String := []

/-- C7 counterexample: an edge into a target field from an origin node of
unrecognized type `mystery` is dropped (no `ExecutionMapping`) and the
export records no warning at all for it (the fallback arm is a bare
`return`): the claim's "a warning is recorded" does not hold. -/
theorem exec_unknown_origin_silent_cex :
    exportExecutionMapping
        [RawNode.mk "t1" "target" (Position.mk 0 0)
          { fields := some [SchemaField.mk "f1" "out" "string" none none] },
         RawNode.mk "u1" "mystery" (Position.mk 0 0) {}]
        [RawEdge.mk "e1" "u1" (some "x") "t1" (some "f1")] "m"
      = { name := "m", version := "1.0.0", mappings := [] }
    ∧ exportExecutionWarnings
        [RawNode.mk "t1" "target" (Position.mk 0 0)
          { fields := some [SchemaField.mk "f1" "out" "string" none none] },
         RawNode.mk "u1" "mystery" (Position.mk 0 0) {}]
        [RawEdge.mk "e1" "u1" (some "x") "t1" (some "f1")] = [] := by
  constructor <;> rfl

/-- Remove an edge (all structurally equal copies) from the edge list. -/
def removeEdge (edges : List RawEdge) (e : RawEdge) : List RawEdge :=
  edges.filter (fun x => !(x == e))

theorem find?_removeEdge (l : List RawEdge) (e : RawEdge) (p : RawEdge → Bool)
    (hp : p e = false) :
    (removeEdge l e).find? p = l.find? p := by
  induction l with
  | nil => rfl
  | cons a rest ih =>
      unfold removeEdge at *
      by_cases ha : a = e
      · subst ha
        rw [List.filter_cons_of_neg (by simp)]
        rw [ih, List.find?_cons_of_neg _ (by simp [hp])]
      · rw [List.filter_cons_of_pos (by simp [ha])]
        by_cases hpa : p a = true
        · rw [List.find?_cons_of_pos _ hpa, List.find?_cons_of_pos _ hpa]
        · rw [List.find?_cons_of_neg _ (by simp [hpa]),
            List.find?_cons_of_neg _ (by simp [hpa]), ih]

theorem filterMap_removeEdge {β : Type} (l : List RawEdge) (e : RawEdge)
    (f : RawEdge → Option β) (hf : f e = none) :
    (removeEdge l e).filterMap f = l.filterMap f := by
  induction l with
  | nil => rfl
  | cons a rest ih =>
      unfold removeEdge at *
      by_cases ha : a = e
      · subst ha
        rw [List.filter_cons_of_neg (by simp)]
        rw [ih, List.filterMap_cons, hf]
      · rw [List.filter_cons_of_pos (by simp [ha])]
        rw [List.filterMap_cons, List.filterMap_cons, ih]

/-- Removing an edge that points at a target-type node never changes the
backward walks of `resolveEdge` (they only search for edges into transform,
conditional or mapping nodes). -/
theorem resolveEdge_stable (nodes : List RawNode) (edges : List RawEdge)
    (e x : RawEdge) (tf : SchemaField)
    (htarget : ∀ n ∈ nodes, n.id = e.target → n.type = "target") :
    resolveEdge nodes (removeEdge edges e) tf x
      = resolveEdge nodes edges tf x := by
  have hne : ∀ (m : RawNode), m ∈ nodes → m.type ≠ "target" →
      (fun e2 : RawEdge => decide (e2.target = m.id)) e = false := by
    intro m hm hmt
    simp only [decide_eq_false_iff_not]
    intro hEq
    exact hmt (htarget m hm hEq.symm)
  unfold resolveEdge
  cases hfind : nodes.find? (fun n => n.id = x.source) with
  | none => rfl
  | some sn =>
      have hsnmem : sn ∈ nodes := List.mem_of_find?_eq_some hfind
      dsimp only
      by_cases h1 : sn.type = "source"
      · rw [if_pos h1, if_pos h1]
      · rw [if_neg h1, if_neg h1]
        by_cases h2 : sn.type = "staticValue"
        · rw [if_pos h2, if_pos h2]
        · rw [if_neg h2, if_neg h2]
          by_cases h3 : sn.type = "ifThen"
          · have hs : sn.type ≠ "target" := by rw [h3]; decide
            rw [if_pos h3, if_pos h3,
              find?_removeEdge edges e _ (hne sn hsnmem hs)]
          · rw [if_neg h3, if_neg h3]
            by_cases h4 : sn.type = "conversionMapping"
            · have hs : sn.type ≠ "target" := by rw [h4]; decide
              rw [if_pos h4, if_pos h4,
                find?_removeEdge edges e _ (hne sn hsnmem hs)]
              cases hcie : edges.find? (fun e2 => e2.target = sn.id) with
              | none => rfl
              | some ie =>
                  dsimp only [Option.bind]
                  cases hin : nodes.find? (fun n => n.id = ie.source) with
                  | none => rfl
                  | some n =>
                      have hnmem : n ∈ nodes := List.mem_of_find?_eq_some hin
                      dsimp only [Option.bind]
                      by_cases hn1 : n.type = "source"
                      · rw [if_pos hn1, if_pos hn1]
                      · rw [if_neg hn1, if_neg hn1]
                        by_cases hn2 : n.type = "transform"
                            ∨ n.type = "splitterTransform"
                        · have hnt : n.type ≠ "target" := by
                            rcases hn2 with h | h <;> rw [h] <;> decide
                          rw [if_pos hn2, if_pos hn2,
                            find?_removeEdge edges e _ (hne n hnmem hnt)]
                        · rw [if_neg hn2, if_neg hn2]
            · rw [if_neg h4, if_neg h4]

/-- C7 (amended): an edge into a target field whose origin node's type is
none of `source`, `staticValue`, `ifThen`, `conversionMapping` resolves to
no `ExecutionMapping`; it is dropped silently (no warning is recorded — the
fallback arm is a bare `return`), the operation does not fail, and every
other edge and target field is processed exactly as if the edge were
absent. -/
theorem exportExecution_drops_unknown_origin
    (nodes : List RawNode) (edges : List RawEdge) (name : String)
    (e : RawEdge) (origin : RawNode)
    (htarget : ∀ n ∈ nodes, n.id = e.target → n.type = "target")
    (hfind : nodes.find? (fun n => n.id = e.source) = some origin)
    (h1 : origin.type ≠ "source") (h2 : origin.type ≠ "staticValue")
    (h3 : origin.type ≠ "ifThen") (h4 : origin.type ≠ "conversionMapping") :
    (∀ tf, resolveEdge nodes edges tf e = none)
    ∧ exportExecutionMapping nodes (removeEdge edges e) name
        = exportExecutionMapping nodes edges name
    ∧ exportExecutionWarnings nodes edges = [] := by
  have hdrop : ∀ (es : List RawEdge) (tf : SchemaField),
      resolveEdge nodes es tf e = none := by
    intro es tf
    unfold resolveEdge
    rw [hfind]
    dsimp only
    rw [if_neg h1, if_neg h2, if_neg h3, if_neg h4]
  refine ⟨fun tf => hdrop edges tf, ?_, rfl⟩
  unfold exportExecutionMapping
  simp only [ExecutionMappingConfig.mk.injEq, true_and]
  congr 1
  funext targetNode
  congr 1
  funext targetField
  have hres : resolveEdge nodes (removeEdge edges e) targetField
      = resolveEdge nodes edges targetField := by
    funext x
    exact resolveEdge_stable nodes edges e x targetField htarget
  rw [hres]
  have hcomm : (removeEdge edges e).filter (fun e2 =>
        e2.target = targetNode.id
        ∧ e2.targetHandle = some targetField.id)
      = removeEdge (edges.filter (fun e2 => e2.target = targetNode.id
          ∧ e2.targetHandle = some targetField.id)) e := by
    unfold removeEdge
    rw [List.filter_comm]
  rw [hcomm, filterMap_removeEdge _ _ _ (hdrop edges targetField)]

/-- Concrete nodes and edge for the C7 witness. -/
def c7T : RawNode :=
  RawNode.mk "t1" "target" (Position.mk 0 0)
    { fields := some [SchemaField.mk "f1" "out" "string" none none] }

def c7U : RawNode := RawNode.mk "u1" "mystery" (Position.mk 0 0) {}

def c7e : RawEdge := RawEdge.mk "e1" "u1" (some "x") "t1" (some "f1")

/-- C7 witness: the silent-drop theorem applied to a concrete graph with an
unrecognized origin node type. -/
theorem exportExecution_drops_unknown_origin_witness :
    ([c7T, c7U].find? (fun n => n.id = c7e.source) = some c7U)
    ∧ ((∀ tf, resolveEdge [c7T, c7U] [c7e] tf c7e = none)
      ∧ exportExecutionMapping [c7T, c7U] (removeEdge [c7e] c7e) "m"
          = exportExecutionMapping [c7T, c7U] [c7e] "m"
      ∧ exportExecutionWarnings [c7T, c7U] [c7e] = []) :=
  ⟨by rfl,
    exportExecution_drops_unknown_origin [c7T, c7U] [c7e] "m" c7e c7U
      (by
        intro n hn hid
        rcases List.mem_cons.mp hn with rfl | hn2
        · rfl
        · rcases List.mem_cons.mp hn2 with rfl | hn3
          · exact absurd hid (by decide)
          · exact absurd hn3 (List.not_mem_nil _))
      (by rfl) (by decide) (by decide) (by decide) (by decide)⟩

/-- C10: for an edge whose origin is a `source`-type node but whose
`sourceHandle` matches no field id in that node's field list, the emitted
mapping is still of type `direct` and its `from` falls back to the raw
`sourceHandle` string (or the empty string when the handle is absent); the
edge is neither skipped nor reported as an error. -/
theorem resolveEdge_source_handle_fallback
    (nodes : List RawNode) (edges : List RawEdge) (tf : SchemaField)
    (e : RawEdge) (sn : RawNode)
    (hfind : nodes.find? (fun n => n.id = e.source) = some sn)
    (hsrc : sn.type = "source")
    (hmiss : (sn.data.fields.getD []).find?
        (fun f => some f.id = e.sourceHandle) = none) :
    resolveEdge nodes edges tf e
      = some { from_ := some (e.sourceHandle.getD ""), to_ := tf.name,
               type := "direct" } := by
  unfold resolveEdge
  rw [hfind]
  dsimp only
  rw [if_pos hsrc, hmiss]
  cases hh : e.sourceHandle with
  | none => rfl
  | some s =>
      have hc : jsOrChain2 none (some s) "" = s := by
        simp only [jsOrChain2, jsOr]
        by_cases hs : s = ""
        · rw [if_pos hs, hs]
        · rw [if_neg hs]
      simp only [Option.map_none', hc, Option.getD_some]

/-- Concrete source node and edge for the C10 witness. -/
def c10S : RawNode :=
  RawNode.mk "s1" "source" (Position.mk 0 0)
    { fields := some [SchemaField.mk "a" "known" "string" none none] }

def c10e : RawEdge := RawEdge.mk "e1" "s1" (some "ghost.path") "t1" (some "f1")

/-- C10 witness: the fallback theorem applied to a concrete source node
whose field list does not contain the edge's handle. -/
theorem resolveEdge_source_handle_fallback_witness :
    ([c10S].find? (fun n => n.id = c10e.source) = some c10S)
    ∧ ((c10S.data.fields.getD []).find?
        (fun f => some f.id = c10e.sourceHandle) = none)
    ∧ resolveEdge [c10S] [c10e] (SchemaField.mk "f1" "out" "string" none none)
        c10e
      = some { from_ := some (c10e.sourceHandle.getD ""), to_ := "out",
               type := "direct" } :=
  ⟨by rfl, by rfl,
    resolveEdge_source_handle_fallback [c10S] [c10e]
      (SchemaField.mk "f1" "out" "string" none none) c10e c10S (by rfl)
      (by rfl) (by rfl)⟩

/-! ## UI exporter (`exportUIMappingConfiguration`) and node importers -/

structure SourceNodeConfig where
  id : String
  type : String
  label : String
  position : Position
  fields : List SchemaField
  sampleData : List JsonRow

structure TargetNodeConfig where
  id : String
  type : String
  label : String
  position : Position
  fields : List SchemaField
  outputData : List JsonRow
  fieldValues : Option (List (String × String)) := none

structure TransformNodeConfig where
  id : String
  type : String
  label : String
  position : Position
  transformType : String
  config : Cfg
  nodeData : Option NodeData := none

structure MappingNodeConfig where
  id : String
  type : String
  label : String
  position : Position
  mappings : List MapEntry

structure Connection where
  id : String
  sourceNodeId : String
  targetNodeId : String
  sourceHandle : String
  targetHandle : String
  type : String

/-- The UI-restorable snapshot. `execution.steps` comes from the external
`buildExecutionSteps` helper and the constant `metadata` block is omitted;
`Date.now()` and `new Date().toISOString()` are explicit parameters of the
exporter. -/
structure MappingConfiguration where
  id : String
  name : String
  version : String
  createdAt : String
  sources : List SourceNodeConfig
  targets : List TargetNodeConfig
  transforms : List TransformNodeConfig
  mappings : List MappingNodeConfig
  connections : List Connection

/-- Projection of a whole `node.data` object onto the config keys that any
downstream reader dereferences (used for the generic-transform fallback
`node.data?.config || node.data || ...`, where the whole data object can
stand in for a config object). -/
def NodeData.toCfg (d : NodeData) : Cfg :=
  { operator := d.operator, compareValue := d.compareValue,
    thenValue := d.thenValue, elseValue := d.elseValue, values := d.values,
    delimiter := d.delimiter, splitIndex := d.splitIndex, rules := d.rules,
    defaultValue := d.defaultValue, outputType := d.outputType,
    parameters := none }

/-- JS object spread `{ ...base, ...ov }` on parameters objects: a key
present in `ov` wins. -/
def Params.mergeOver (base ov : Params) : Params :=
  { operator := ov.operator <|> base.operator,
    compareValue := ov.compareValue <|> base.compareValue,
    thenValue := ov.thenValue <|> base.thenValue,
    elseValue := ov.elseValue <|> base.elseValue,
    values := ov.values <|> base.values,
    delimiter := ov.delimiter <|> base.delimiter,
    splitIndex := ov.splitIndex <|> base.splitIndex,
    rules := ov.rules <|> base.rules,
    defaultValue := ov.defaultValue <|> base.defaultValue,
    outputType := ov.outputType <|> base.outputType,
    stringOperation := ov.stringOperation <|> base.stringOperation,
    operation := ov.operation <|> base.operation,
    substringStart := ov.substringStart <|> base.substringStart,
    substringEnd := ov.substringEnd <|> base.substringEnd }

/-- JS object spread `{ label, transformType, config, ...config.nodeData }`
on node-data bags: a key present in the spread object wins. -/
def NodeData.mergeOver (base ov : NodeData) : NodeData :=
  { label := ov.label <|> base.label,
    fields := ov.fields <|> base.fields,
    data := ov.data <|> base.data,
    fieldValues := ov.fieldValues <|> base.fieldValues,
    transformType := ov.transformType <|> base.transformType,
    operator := ov.operator <|> base.operator,
    compareValue := ov.compareValue <|> base.compareValue,
    thenValue := ov.thenValue <|> base.thenValue,
    elseValue := ov.elseValue <|> base.elseValue,
    values := ov.values <|> base.values,
    delimiter := ov.delimiter <|> base.delimiter,
    splitIndex := ov.splitIndex <|> base.splitIndex,
    rules := ov.rules <|> base.rules,
    defaultValue := ov.defaultValue <|> base.defaultValue,
    outputType := ov.outputType <|> base.outputType,
    inputValues := ov.inputValues <|> base.inputValues,
    config := ov.config <|> base.config,
    mappings := ov.mappings <|> base.mappings }

def exportSourceCfg (n : RawNode) : SourceNodeConfig :=
  { id := n.id, type := "source", label := jsOr n.data.label "Source Node",
    position := n.position, fields := n.data.fields.getD [],
    sampleData := n.data.data.getD [] }

def exportTargetCfg (n : RawNode) : TargetNodeConfig :=
  { id := n.id, type := "target", label := jsOr n.data.label "Target Node",
    position := n.position, fields := n.data.fields.getD [],
    outputData := n.data.data.getD [],
    fieldValues := n.data.fieldValues }

/-- The transform-node branch of the export (the per-type `if` chain of
`exportUIMappingConfiguration`). -/
def exportTransformCfg (n : RawNode) : TransformNodeConfig :=
  let base : TransformNodeConfig :=
    { id := n.id, type := n.type,
      label := jsOr n.data.label "Transform Node",
      position := n.position,
      transformType := jsOr n.data.transformType (jsOrP n.type "unknown"),
      config := {}, nodeData := none }
  if n.type = "ifThen" then
    let ps : Params :=
      { operator := some (jsOr n.data.operator "="),
        compareValue := some (jsOr n.data.compareValue ""),
        thenValue := some (jsOr n.data.thenValue ""),
        elseValue := some (jsOr n.data.elseValue "") }
    let nd : NodeData :=
      { operator := some (jsOr n.data.operator "="),
        compareValue := some (jsOr n.data.compareValue ""),
        thenValue := some (jsOr n.data.thenValue ""),
        elseValue := some (jsOr n.data.elseValue "") }
    { base with
      config := { operation := some "conditional", parameters := some ps },
      nodeData := some nd }
  else if n.type = "staticValue" then
    let ps : Params := { values := some (n.data.values.getD []) }
    let nd : NodeData := { values := some (n.data.values.getD []) }
    { base with
      config := { operation := some "static", parameters := some ps },
      nodeData := some nd }
  else if n.type = "splitterTransform" then
    let additionalConfig : Cfg := n.data.config.getD {}
    let ps : Params :=
      Params.mergeOver
        { delimiter := some (jsOr n.data.delimiter ","),
          splitIndex := some (jsOrInt n.data.splitIndex 0) }
        additionalConfig.toParams
    let nd : NodeData :=
      { delimiter := some (jsOr n.data.delimiter ","),
        splitIndex := some (jsOrInt n.data.splitIndex 0),
        config := some additionalConfig }
    { base with
      config := { operation := some "split", parameters := some ps },
      nodeData := some nd }
  else if n.type = "coalesceTransform"
      ∨ (n.type = "transform" ∧ n.data.transformType = some "coalesce") then
    let ps : Params :=
      { rules := some (n.data.rules.getD []),
        defaultValue := some (jsOr n.data.defaultValue ""),
        outputType := some (jsOr n.data.outputType "value") }
    let nd : NodeData :=
      { rules := some (n.data.rules.getD []),
        defaultValue := some (jsOr n.data.defaultValue ""),
        outputType := some (jsOr n.data.outputType "value"),
        inputValues := some (n.data.inputValues.getD []) }
    { base with
      config := { operation := some "coalesce", parameters := some ps },
      nodeData := some nd }
  else
    { base with
      config := (match n.data.config with
        | some c => c
        | none => n.data.toCfg),
      nodeData := some n.data }

def exportMappingCfg (n : RawNode) : MappingNodeConfig :=
  { id := n.id, type := "mapping", label := jsOr n.data.label "Mapping Node",
    position := n.position, mappings := n.data.mappings.getD [] }

/-- The connection classification of `exportUIMappingConfiguration`:
`transform` when the edge's source node exists and is not one of the three
reserved structural types, `mapping` when it is a `conversionMapping`, else
`direct`. Absent handles are exported as empty strings. -/
def exportConnection (nodes : List RawNode) (e : RawEdge) : Connection :=
  let sourceNode := nodes.find? (fun n => n.id = e.source)
  let connectionType :=
    match sourceNode with
    | some sn =>
        if !(["source", "target", "conversionMapping"].contains sn.type) then
          "transform"
        else if sn.type = "conversionMapping" then "mapping"
        else "direct"
    | none => "direct"
  { id := e.id, sourceNodeId := e.source, targetNodeId := e.target,
    sourceHandle := e.sourceHandle.getD "",
    targetHandle := e.targetHandle.getD "", type := connectionType }

/-- `exportUIMappingConfiguration`: partition the nodes into the four
categories (a transform is anything not `source`/`target`/
`conversionMapping`), export each per-category config, and export every
edge as a classified connection. -/
def exportUIMappingConfiguration (nodes : List RawNode)
    (edges : List RawEdge) (nowMs : Int) (createdAt : String)
    (name : String) : MappingConfiguration :=
  { id := "mapping_" ++ toString nowMs, name := name, version := "1.0.0",
    createdAt := createdAt,
    sources := (nodes.filter (fun n => n.type = "source")).map exportSourceCfg,
    targets := (nodes.filter (fun n => n.type = "target")).map exportTargetCfg,
    transforms := (nodes.filter (fun n =>
      !(["source", "target", "conversionMapping"].contains n.type))).map
      exportTransformCfg,
    mappings := (nodes.filter (fun n => n.type = "conversionMapping")).map
      exportMappingCfg,
    connections := edges.map (exportConnection nodes) }

/-- `importSourceNode` (NodeImporter). -/
def importSourceNode (config : SourceNodeConfig) : RawNode :=
  let d : NodeData :=
    { label := some config.label, fields := some config.fields,
      data := some config.sampleData }
  { id := config.id, type := "source", position := config.position,
    data := d }

/-- `importTargetNode` (NodeImporter): fields pass through
`reconstructSchemaFields`; `fieldValues` is reset to an empty object. -/
def importTargetNode (config : TargetNodeConfig)
    (arrayConfigs : Option (List ArrayConfig)) : RawNode :=
  let d : NodeData :=
    { label := some config.label,
      fields := some (reconstructSchemaFields config.fields arrayConfigs),
      data := some config.outputData, fieldValues := some [] }
  { id := config.id, type := "target", position := config.position,
    data := d }

/-- `importTransformNode` (NodeImporter): the `coalesce` special case reads
`rules`/`defaultValue`/`outputType` through the multi-shape fallback chains
(`nodeData` first, then `config.parameters`, then `config`, JS `||`
semantics); every other transform rebuilds
`{label, transformType, config, ...nodeData}`. -/
def importTransformNode (config : TransformNodeConfig) : RawNode :=
  if config.transformType = "coalesce" then
    let rules := ((config.nodeData.bind NodeData.rules)
      <|> (config.config.parameters.bind Params.rules)
      <|> config.config.rules).getD []
    let defaultValue :=
      jsOrChain2 (config.nodeData.bind NodeData.defaultValue)
        (config.config.parameters.bind Params.defaultValue)
        (jsOr config.config.defaultValue "")
    let outputType := jsOr (config.nodeData.bind NodeData.outputType) "value"
    let inputValues := (config.nodeData.bind NodeData.inputValues).getD []
    let innerPs : Params :=
      { rules := some rules, defaultValue := some defaultValue,
        outputType := some outputType }
    let cfg : Cfg :=
      { rules := some rules, defaultValue := some defaultValue,
        parameters := some innerPs }
    let d : NodeData :=
      { label := some config.label,
        transformType := some "coalesce", rules := some rules,
        defaultValue := some defaultValue, outputType := some outputType,
        inputValues := some inputValues, config := some cfg }
    { id := config.id, type := "transform", position := config.position,
      data := d }
  else
    let base : NodeData :=
      { label := some config.label,
        transformType := some config.transformType,
        config := some config.config }
    { id := config.id, type := config.type, position := config.position,
      data := match config.nodeData with
        | none => base
        | some nd => NodeData.mergeOver base nd }

/-- `importMappingNode` (NodeImporter). -/
def importMappingNode (config : MappingNodeConfig) : RawNode :=
  let d : NodeData :=
    { label := some config.label, mappings := some config.mappings }
  { id := config.id, type := "mapping", position := config.position,
    data := d }

/-- Replay of one stored connection as a canvas edge. -/
def connectionToEdge (c : Connection) : RawEdge :=
  { id := c.id, source := c.sourceNodeId, sourceHandle := some c.sourceHandle,
    target := c.targetNodeId, targetHandle := some c.targetHandle }

/-- Modelled from the spec: the orchestrating `importConfiguration`
(importers/ConfigImporter) is not under src/; only the per-category node
importers are. Per spec §4.3 it constructs each node of
`nodes.{sources,targets,transforms,mappings}` with the per-category
importer (target field trees through `reconstructSchemaFields` with any
externally supplied array configuration) and then replays `connections`
as edges verbatim (`sourceNodeId→source`, `targetNodeId→target`, handles
preserved). -/
def importConfiguration (config : MappingConfiguration)
    (arrayConfigs : Option (List ArrayConfig)) :
    List RawNode × List RawEdge :=
  (config.sources.map importSourceNode
    ++ config.targets.map (fun t => importTargetNode t arrayConfigs)
    ++ config.transforms.map importTransformNode
    ++ config.mappings.map importMappingNode,
   config.connections.map connectionToEdge)

/-! ## Typed graph model (the node/edge data model of spec §3) -/

/-- One variant per node kind of the data model, each carrying exactly its
documented payload. -/
inductive GNodeData where
  | source (label : String) (fields : List SchemaField)
      (sample : List JsonRow)
  | target (label : String) (fields : List SchemaField)
      (output : List JsonRow) (fieldValues : List (String × String))
  | ifThen (label operator compareValue thenValue elseValue : String)
  | staticValue (label : String) (values : List StaticEntry)
  | splitter (label delimiter : String) (splitIndex : Int)
  | coalesce (label : String) (rules : List CRule)
      (defaultValue outputType : String)
      (inputValues : List (String × String))
  | transform (label transformType : String) (cfg : Cfg)
  | mappingNode (label : String) (mappings : List MapEntry)

structure GNode where
  id : String
  position : Position
  data : GNodeData

/-- Typed edges: per the data model an edge always carries its two
handles (possibly empty strings). -/
structure GEdge where
  id : String
  source : String
  sourceHandle : String
  target : String
  targetHandle : String

def GNodeData.nodeType : GNodeData → String
  | .source .. => "source"
  | .target .. => "target"
  | .ifThen .. => "ifThen"
  | .staticValue .. => "staticValue"
  | .splitter .. => "splitterTransform"
  | .coalesce .. => "transform"
  | .transform .. => "transform"
  | .mappingNode .. => "conversionMapping"

def GNodeData.toNodeData : GNodeData → NodeData
  | .source l fs rows =>
      { label := some l, fields := some fs, data := some rows }
  | .target l fs rows fv =>
      { label := some l, fields := some fs, data := some rows,
        fieldValues := some fv }
  | .ifThen l op cv tv ev =>
      { label := some l, operator := some op, compareValue := some cv,
        thenValue := some tv, elseValue := some ev }
  | .staticValue l vs => { label := some l, values := some vs }
  | .splitter l d si =>
      { label := some l, delimiter := some d, splitIndex := some si }
  | .coalesce l rs dv ot iv =>
      { label := some l, transformType := some "coalesce",
        rules := some rs, defaultValue := some dv, outputType := some ot,
        inputValues := some iv }
  | .transform l tt cfg =>
      { label := some l, transformType := some tt, config := some cfg }
  | .mappingNode l ms => { label := some l, mappings := some ms }

def GNode.toRaw (g : GNode) : RawNode :=
  { id := g.id, type := g.data.nodeType, position := g.position,
    data := g.data.toNodeData }

def GEdge.toRaw (e : GEdge) : RawEdge :=
  { id := e.id, source := e.source, sourceHandle := some e.sourceHandle,
    target := e.target, targetHandle := some e.targetHandle }

/-- Data-model side conditions under which the UI export is lossless for
the round trip: the exporter replaces falsy (empty-string) parameters with
defaults (`operator || '='`, `delimiter || ','`, `outputType || 'value'`),
and a generic transform node claiming `transformType = 'coalesce'` would be
re-imported through the coalesce path, losing its config. -/
def GNodeData.wellFormed : GNodeData → Bool
  | .ifThen _ op _ _ _ => op != ""
  | .splitter _ d _ => d != ""
  | .coalesce _ _ _ ot _ => ot != ""
  | .transform _ tt _ => tt != "coalesce"
  | _ => true

/-! ## Views compared by the round-trip isomorphism -/

/-- The field tree a node carries (empty for non-schema nodes). -/
def RawNode.fieldTree (n : RawNode) : List SchemaField :=
  n.data.fields.getD []

/-- The transform parameters of a node, read off its raw data by node
type. -/
inductive TParams where
  | nodeP
  | ifThenP (operator compareValue thenValue elseValue : String)
  | staticP (values : List StaticEntry)
  | splitP (delimiter : String) (splitIndex : Int)
  | coalesceP (rules : List CRule) (defaultValue outputType : String)
  | mapP (mappings : List MapEntry)
  | genericP (transformType : String) (cfg : Option Cfg)
deriving Repr, DecidableEq

def RawNode.tparams (n : RawNode) : TParams :=
  if n.type = "source" ∨ n.type = "target" then TParams.nodeP
  else if n.type = "ifThen" then
    TParams.ifThenP (n.data.operator.getD "") (n.data.compareValue.getD "")
      (n.data.thenValue.getD "") (n.data.elseValue.getD "")
  else if n.type = "staticValue" then
    TParams.staticP (n.data.values.getD [])
  else if n.type = "splitterTransform" then
    TParams.splitP (n.data.delimiter.getD "") (n.data.splitIndex.getD 0)
  else if n.type = "conversionMapping" ∨ n.type = "mapping" then
    TParams.mapP (n.data.mappings.getD [])
  else if n.data.transformType = some "coalesce" then
    TParams.coalesceP (n.data.rules.getD []) (n.data.defaultValue.getD "")
      (n.data.outputType.getD "")
  else TParams.genericP (n.data.transformType.getD "") n.data.config

/-- The view the round-trip isomorphism compares on nodes: id, field tree,
transform parameters. -/
def nodeView (n : RawNode) : String × List SchemaField × TParams :=
  (n.id, n.fieldTree, n.tparams)

/-- The view compared on edges: endpoints and handles (an absent handle and
an empty-string handle denote the same anchor). -/
def topoView (e : RawEdge) : String × String × String × String :=
  (e.source, e.sourceHandle.getD "", e.target, e.targetHandle.getD "")

theorem jsOr_some_empty (s : String) : jsOr (some s) "" = s := by
  simp only [jsOr]
  by_cases h : s = ""
  · rw [if_pos h, h]
  · rw [if_neg h]

theorem jsOr_some_of_ne (s d : String) (h : s ≠ "") :
    jsOr (some s) d = s := by
  simp only [jsOr]
  rw [if_neg h]

theorem jsOrInt_some_zero (n : Int) : jsOrInt (some n) 0 = n := by
  simp only [jsOrInt]
  by_cases h : n = 0
  · rw [if_pos h, h]
  · rw [if_neg h]

theorem jsOrChain2_some_some_empty (s : String) :
    jsOrChain2 (some s) (some s) "" = s := by
  simp only [jsOrChain2, jsOr]
  by_cases h : s = ""
  · rw [if_pos h, h]
    simp
  · rw [if_neg h]

theorem roundTrip_source_node (g : GNode) (h : g.toRaw.type = "source") :
    nodeView (importSourceNode (exportSourceCfg g.toRaw))
      = nodeView g.toRaw := by
  obtain ⟨i, p, d⟩ := g
  cases d <;>
    simp_all [GNode.toRaw, GNodeData.nodeType, GNodeData.toNodeData,
      nodeView, RawNode.fieldTree, RawNode.tparams, importSourceNode,
      exportSourceCfg]

theorem roundTrip_target_node (g : GNode) (h : g.toRaw.type = "target") :
    nodeView (importTargetNode (exportTargetCfg g.toRaw) none)
      = nodeView g.toRaw := by
  obtain ⟨i, p, d⟩ := g
  cases d <;>
    simp_all [GNode.toRaw, GNodeData.nodeType, GNodeData.toNodeData,
      nodeView, RawNode.fieldTree, RawNode.tparams, importTargetNode,
      exportTargetCfg, reconstructSchemaFields_none]

theorem roundTrip_mapping_node (g : GNode)
    (h : g.toRaw.type = "conversionMapping") :
    nodeView (importMappingNode (exportMappingCfg g.toRaw))
      = nodeView g.toRaw := by
  obtain ⟨i, p, d⟩ := g
  cases d <;>
    simp_all [GNode.toRaw, GNodeData.nodeType, GNodeData.toNodeData,
      nodeView, RawNode.fieldTree, RawNode.tparams, importMappingNode,
      exportMappingCfg]

theorem jsOr_none (d : String) : jsOr none d = d := rfl

theorem roundTrip_transform_node (g : GNode)
    (hc : (["source", "target", "conversionMapping"].contains
        g.toRaw.type) = false)
    (hwf : g.data.wellFormed = true) :
    nodeView (importTransformNode (exportTransformCfg g.toRaw))
      = nodeView g.toRaw := by
  obtain ⟨i, p, d⟩ := g
  cases d with
  | source l fs rows => simp [GNode.toRaw, GNodeData.nodeType] at hc
  | target l fs rows fv => simp [GNode.toRaw, GNodeData.nodeType] at hc
  | mappingNode l ms => simp [GNode.toRaw, GNodeData.nodeType] at hc
  | ifThen l op cv tv ev =>
      have hop : op ≠ "" := by
        simpa [GNodeData.wellFormed] using hwf
      simp [GNode.toRaw, GNodeData.nodeType, GNodeData.toNodeData,
        exportTransformCfg, importTransformNode, NodeData.mergeOver,
        nodeView, RawNode.fieldTree, RawNode.tparams, jsOr_none, jsOrP,
        jsOr_some_empty, jsOr_some_of_ne _ _ hop]
  | staticValue l vs =>
      simp [GNode.toRaw, GNodeData.nodeType, GNodeData.toNodeData,
        exportTransformCfg, importTransformNode, NodeData.mergeOver,
        nodeView, RawNode.fieldTree, RawNode.tparams, jsOr_none, jsOrP]
  | splitter l dl si =>
      have hdl : dl ≠ "" := by
        simpa [GNodeData.wellFormed] using hwf
      simp [GNode.toRaw, GNodeData.nodeType, GNodeData.toNodeData,
        exportTransformCfg, importTransformNode, NodeData.mergeOver,
        nodeView, RawNode.fieldTree, RawNode.tparams, jsOr_none, jsOrP,
        jsOrInt_some_zero, jsOr_some_of_ne _ _ hdl]
  | coalesce l rs dv ot iv =>
      have hot : ot ≠ "" := by
        simpa [GNodeData.wellFormed] using hwf
      simp [GNode.toRaw, GNodeData.nodeType, GNodeData.toNodeData,
        exportTransformCfg, importTransformNode, nodeView,
        RawNode.fieldTree, RawNode.tparams, jsOr_none, jsOrP,
        jsOr_some_empty, jsOrChain2_some_some_empty,
        jsOr_some_of_ne _ _ hot,
        jsOr_some_of_ne "coalesce" "transform" (by decide)]
  | transform l tt cfg =>
      have htt : tt ≠ "coalesce" := by
        simpa [GNodeData.wellFormed] using hwf
      by_cases htt0 : tt = ""
      · subst htt0
        simp [GNode.toRaw, GNodeData.nodeType, GNodeData.toNodeData,
          exportTransformCfg, importTransformNode, NodeData.mergeOver,
          nodeView, RawNode.fieldTree, RawNode.tparams, jsOr, jsOrP]
      · simp [GNode.toRaw, GNodeData.nodeType, GNodeData.toNodeData,
          exportTransformCfg, importTransformNode, NodeData.mergeOver,
          nodeView, RawNode.fieldTree, RawNode.tparams, jsOr_none, jsOrP,
          jsOr_some_of_ne _ _ htt0, htt]

/-- Partitioning a list by three mutually exclusive tests plus the residual
class is a permutation of the list (in the block order first/second/
residual/third, matching the category order of the import). -/
theorem four_way_filter_perm {α : Type} (l : List α) (p1 p2 p3 : α → Bool)
    (h12 : ∀ x, p1 x = true → p2 x = false)
    (h13 : ∀ x, p1 x = true → p3 x = false)
    (h23 : ∀ x, p2 x = true → p3 x = false) :
    (l.filter p1 ++ l.filter p2
      ++ l.filter (fun x => !(p1 x || p2 x || p3 x))
      ++ l.filter p3).Perm l := by
  induction l with
  | nil => simp
  | cons a rest ih =>
      by_cases hp1 : p1 a = true
      · rw [List.filter_cons_of_pos hp1,
          List.filter_cons_of_neg (by simp [h12 a hp1]),
          List.filter_cons_of_neg (by simp [hp1]),
          List.filter_cons_of_neg (by simp [h13 a hp1])]
        simpa using ih.cons a
      · by_cases hp2 : p2 a = true
        · rw [List.filter_cons_of_neg (by simp [hp1]),
            List.filter_cons_of_pos hp2,
            List.filter_cons_of_neg (by simp [hp2]),
            List.filter_cons_of_neg (by simp [h23 a hp2])]
          have e1 : rest.filter p1 ++ (a :: rest.filter p2)
              ++ rest.filter (fun x => !(p1 x || p2 x || p3 x))
              ++ rest.filter p3
              = rest.filter p1 ++ a :: (rest.filter p2
                ++ rest.filter (fun x => !(p1 x || p2 x || p3 x))
                ++ rest.filter p3) := by simp
          rw [e1]
          refine List.Perm.trans List.perm_middle (List.Perm.cons a ?_)
          simpa [List.append_assoc] using ih
        · by_cases hp3 : p3 a = true
          · rw [List.filter_cons_of_neg (by simp [hp1]),
              List.filter_cons_of_neg (by simp [hp2]),
              List.filter_cons_of_neg (by simp [hp3]),
              List.filter_cons_of_pos hp3]
            have e1 : rest.filter p1 ++ rest.filter p2
                ++ rest.filter (fun x => !(p1 x || p2 x || p3 x))
                ++ (a :: rest.filter p3)
                = (rest.filter p1 ++ rest.filter p2
                  ++ rest.filter (fun x => !(p1 x || p2 x || p3 x)))
                  ++ a :: rest.filter p3 := by simp
            rw [e1]
            refine List.Perm.trans List.perm_middle (List.Perm.cons a ?_)
            simpa [List.append_assoc] using ih
          · rw [List.filter_cons_of_neg (by simp [hp1]),
              List.filter_cons_of_neg (by simp [hp2]),
              List.filter_cons_of_pos (by simp [hp1, hp2, hp3]),
              List.filter_cons_of_neg (by simp [hp3])]
            have e1 : rest.filter p1 ++ rest.filter p2
                ++ (a :: rest.filter (fun x => !(p1 x || p2 x || p3 x)))
                ++ rest.filter p3
                = (rest.filter p1 ++ rest.filter p2)
                  ++ a :: (rest.filter (fun x => !(p1 x || p2 x || p3 x))
                  ++ rest.filter p3) := by simp
            rw [e1]
            refine List.Perm.trans List.perm_middle (List.Perm.cons a ?_)
            simpa [List.append_assoc] using ih

theorem map_congr_mem {α β : Type} (l : List α) (f g : α → β)
    (h : ∀ a ∈ l, f a = g a) : l.map f = l.map g := by
  induction l with
  | nil => rfl
  | cons a rest ih =>
      simp only [List.map_cons]
      rw [h a (by simp), ih (fun a ha => h a (by simp [ha]))]

theorem containsBasic_not_eq (n : RawNode) :
    (!(["source", "target", "conversionMapping"].contains n.type))
      = (!(decide (n.type = "source") || decide (n.type = "target")
          || decide (n.type = "conversionMapping"))) := by
  by_cases h1 : n.type = "source"
  · simp [h1]
  · by_cases h2 : n.type = "target"
    · simp [h2]
    · by_cases h3 : n.type = "conversionMapping"
      · simp [h3]
      · simp [h1, h2, h3]

/-- C1 (amended): for every graph of the §3 data model whose transform
parameters survive the exporter's falsy-value defaulting (`wellFormed`),
importing the exported UI configuration (per-category importers plus
verbatim connection replay) yields a graph isomorphic to the original under
node reordering-by-category and id preservation: the node views (id, field
tree, transform parameters) are a permutation of the originals, and the
edges carry exactly the original connection topology. -/
theorem uiExport_import_roundTrip
    (gs : List GNode) (es : List GEdge) (nowMs : Int)
    (createdAt name : String)
    (hwf : ∀ g ∈ gs, g.data.wellFormed = true) :
    (((importConfiguration (exportUIMappingConfiguration
        (gs.map GNode.toRaw) (es.map GEdge.toRaw) nowMs createdAt name)
        none).1.map nodeView).Perm ((gs.map GNode.toRaw).map nodeView))
    ∧ ((importConfiguration (exportUIMappingConfiguration
        (gs.map GNode.toRaw) (es.map GEdge.toRaw) nowMs createdAt name)
        none).2.map topoView = (es.map GEdge.toRaw).map topoView) := by
  constructor
  · have h1 : (importConfiguration (exportUIMappingConfiguration
        (gs.map GNode.toRaw) (es.map GEdge.toRaw) nowMs createdAt name)
        none).1
        = (((gs.map GNode.toRaw).filter (fun n => n.type = "source")).map
            exportSourceCfg).map importSourceNode
          ++ (((gs.map GNode.toRaw).filter (fun n => n.type = "target")).map
            exportTargetCfg).map (fun t => importTargetNode t none)
          ++ (((gs.map GNode.toRaw).filter (fun n =>
              !(["source", "target", "conversionMapping"].contains
                n.type))).map exportTransformCfg).map importTransformNode
          ++ (((gs.map GNode.toRaw).filter (fun n =>
              n.type = "conversionMapping")).map exportMappingCfg).map
            importMappingNode := rfl
    rw [h1]
    simp only [List.map_append, List.map_map]
    have hA : ((gs.map GNode.toRaw).filter
          (fun n => n.type = "source")).map
          (nodeView ∘ importSourceNode ∘ exportSourceCfg)
        = ((gs.map GNode.toRaw).filter
          (fun n => n.type = "source")).map nodeView := by
      apply map_congr_mem
      intro x hx
      obtain ⟨hxn, hxp⟩ := List.mem_filter.mp hx
      obtain ⟨g, hg, rfl⟩ := List.mem_map.mp hxn
      exact roundTrip_source_node g (of_decide_eq_true hxp)
    have hB : ((gs.map GNode.toRaw).filter
          (fun n => n.type = "target")).map
          (nodeView ∘ (fun t => importTargetNode t none) ∘ exportTargetCfg)
        = ((gs.map GNode.toRaw).filter
          (fun n => n.type = "target")).map nodeView := by
      apply map_congr_mem
      intro x hx
      obtain ⟨hxn, hxp⟩ := List.mem_filter.mp hx
      obtain ⟨g, hg, rfl⟩ := List.mem_map.mp hxn
      exact roundTrip_target_node g (of_decide_eq_true hxp)
    have hC : ((gs.map GNode.toRaw).filter (fun n =>
          !(["source", "target", "conversionMapping"].contains
            n.type))).map
          (nodeView ∘ importTransformNode ∘ exportTransformCfg)
        = ((gs.map GNode.toRaw).filter (fun n =>
          !(["source", "target", "conversionMapping"].contains
            n.type))).map nodeView := by
      apply map_congr_mem
      intro x hx
      obtain ⟨hxn, hxp⟩ := List.mem_filter.mp hx
      obtain ⟨g, hg, rfl⟩ := List.mem_map.mp hxn
      exact roundTrip_transform_node g (by simpa using hxp) (hwf g hg)
    have hD : ((gs.map GNode.toRaw).filter
          (fun n => n.type = "conversionMapping")).map
          (nodeView ∘ importMappingNode ∘ exportMappingCfg)
        = ((gs.map GNode.toRaw).filter
          (fun n => n.type = "conversionMapping")).map nodeView := by
      apply map_congr_mem
      intro x hx
      obtain ⟨hxn, hxp⟩ := List.mem_filter.mp hx
      obtain ⟨g, hg, rfl⟩ := List.mem_map.mp hxn
      exact roundTrip_mapping_node g (of_decide_eq_true hxp)
    rw [hA, hB, hC, hD]
    have hresid : (gs.map GNode.toRaw).filter (fun n =>
          !(["source", "target", "conversionMapping"].contains n.type))
        = (gs.map GNode.toRaw).filter (fun n =>
          !(decide (n.type = "source") || decide (n.type = "target")
            || decide (n.type = "conversionMapping"))) := by
      apply List.filter_congr
      intro x _
      exact containsBasic_not_eq x
    rw [hresid]
    have hperm := (four_way_filter_perm (gs.map GNode.toRaw)
        (fun n => decide (n.type = "source"))
        (fun n => decide (n.type = "target"))
        (fun n => decide (n.type = "conversionMapping"))
        (fun x hx => by
          have hs : x.type = "source" := of_decide_eq_true hx
          simp [hs])
        (fun x hx => by
          have hs : x.type = "source" := of_decide_eq_true hx
          simp [hs])
        (fun x hx => by
          have hs : x.type = "target" := of_decide_eq_true hx
          simp [hs])).map nodeView
    simpa [List.map_append] using hperm
  · have h2 : (importConfiguration (exportUIMappingConfiguration
        (gs.map GNode.toRaw) (es.map GEdge.toRaw) nowMs createdAt name)
        none).2
        = ((es.map GEdge.toRaw).map
            (exportConnection (gs.map GNode.toRaw))).map
          connectionToEdge := rfl
    rw [h2]
    simp only [List.map_map]
    rfl

/-- An `ifThen` node whose operator is the empty string (a legal string
parameter in the data model). -/
def c1BadNode : GNode :=
  GNode.mk "n1" (Position.mk 0 0) (GNodeData.ifThen "If" "" "cmp" "th" "el")

/-- C1 counterexample: the exporter rewrites falsy parameters
(`operator || '='`), so importing the export of a graph containing an
`ifThen` node with an empty operator yields different transform parameters
(`"="` instead of `""`) — the round trip is not an isomorphism with "the
same transform parameters" for every graph. -/
theorem uiExport_import_roundTrip_cex :
    ((importConfiguration (exportUIMappingConfiguration [c1BadNode.toRaw]
        [] 0 "t0" "m") none).1.map nodeView
      = [("n1", [], TParams.ifThenP "=" "cmp" "th" "el")])
    ∧ ([c1BadNode.toRaw].map nodeView
      = [("n1", [], TParams.ifThenP "" "cmp" "th" "el")])
    ∧ TParams.ifThenP "=" "cmp" "th" "el"
        ≠ TParams.ifThenP "" "cmp" "th" "el" := by
  refine ⟨rfl, rfl, ?_⟩
  decide

/-- A tiny well-formed concrete graph for the C1 witness. -/
def c1WitSource : GNode :=
  GNode.mk "s1" (Position.mk 1 2)
    (GNodeData.source "Src" [SchemaField.mk "f" "name" "string" none none] [])

def c1WitEdge : GEdge := GEdge.mk "e1" "s1" "f" "t1" "g"

/-- C1 witness: the amended round-trip theorem applied to a concrete
one-node, one-edge graph. -/
theorem uiExport_import_roundTrip_witness :
    (∀ g ∈ [c1WitSource], g.data.wellFormed = true)
    ∧ ((((importConfiguration (exportUIMappingConfiguration
          ([c1WitSource].map GNode.toRaw) ([c1WitEdge].map GEdge.toRaw) 0
          "t0" "m") none).1.map nodeView).Perm
          (([c1WitSource].map GNode.toRaw).map nodeView))
        ∧ ((importConfiguration (exportUIMappingConfiguration
          ([c1WitSource].map GNode.toRaw) ([c1WitEdge].map GEdge.toRaw) 0
          "t0" "m") none).2.map topoView
          = ([c1WitEdge].map GEdge.toRaw).map topoView)) :=
  ⟨by
    intro g hg
    rcases List.mem_singleton.mp hg with rfl
    rfl,
   uiExport_import_roundTrip [c1WitSource] [c1WitEdge] 0 "t0" "m"
    (by
      intro g hg
      rcases List.mem_singleton.mp hg with rfl
      rfl)⟩
